import Mathlib

/-!
Verification of the themed-tags plugin (color conversions, accent-variable
discovery, style-block injection).  The TypeScript source is embedded
shallowly: JavaScript numbers are modelled as exact rationals, with an
explicit NaN constructor where string parsing can fail; DOM state (the
style blocks appended to the document head, the stylesheet list, computed
root-scope custom-property values, and the body's inline style) is modelled
as explicit data passed through the functions that read or mutate it.
-/

namespace ThemedTags

/-! ## JavaScript numbers

A JavaScript number is either NaN or (idealising IEEE-754 doubles) an exact
rational.  Arithmetic propagates NaN; comparisons and strict (in)equality on
NaN follow JavaScript (`NaN < x`, `NaN === x` are false, `NaN !== NaN` is
true).  Division is exact rational division: JavaScript division by zero
yields an infinity, which is not modelled — every division reached in this
development has a nonzero denominator or a NaN operand. -/

inductive JsNum where
  | nan : JsNum
  | val : ℚ → JsNum
deriving DecidableEq, Repr

def jsAdd : JsNum → JsNum → JsNum
  | JsNum.val a, JsNum.val b => JsNum.val (a + b)
  | _, _ => JsNum.nan

def jsSub : JsNum → JsNum → JsNum
  | JsNum.val a, JsNum.val b => JsNum.val (a - b)
  | _, _ => JsNum.nan

def jsMul : JsNum → JsNum → JsNum
  | JsNum.val a, JsNum.val b => JsNum.val (a * b)
  | _, _ => JsNum.nan

def jsDiv : JsNum → JsNum → JsNum
  | JsNum.val a, JsNum.val b => JsNum.val (a / b)
  | _, _ => JsNum.nan

def jsMax : JsNum → JsNum → JsNum
  | JsNum.val a, JsNum.val b => JsNum.val (max a b)
  | _, _ => JsNum.nan

def jsMin : JsNum → JsNum → JsNum
  | JsNum.val a, JsNum.val b => JsNum.val (min a b)
  | _, _ => JsNum.nan

/-- JavaScript `a < b` (false when an operand is NaN). -/
def jsLt : JsNum → JsNum → Bool
  | JsNum.val a, JsNum.val b => a < b
  | _, _ => false

/-- JavaScript `a > b` (false when an operand is NaN). -/
def jsGt : JsNum → JsNum → Bool
  | JsNum.val a, JsNum.val b => b < a
  | _, _ => false

/-- JavaScript strict equality `===` on numbers (false when an operand is NaN). -/
def jsStrictEq : JsNum → JsNum → Bool
  | JsNum.val a, JsNum.val b => a = b
  | _, _ => false

/-- JavaScript strict inequality `!==` on numbers (`NaN !== NaN` is true). -/
def jsStrictNe (a b : JsNum) : Bool := !(jsStrictEq a b)

/-! ## Character classes and string primitives

All string processing is done on `List Char`.  `isJsSpace` is the ASCII part
of the regex class `\s` (and of the whitespace skipped by `parseInt` and
`trim`); no input in this development contains Unicode whitespace. -/

def isJsSpace (c : Char) : Bool :=
  c = ' ' || c = '\t' || c = '\n' || c = '\r' || c = '\x0b' || c = '\x0c'

/-- Value of one hexadecimal digit character, if it is one. -/
def hexDigitVal (c : Char) : Option ℕ :=
  if '0' ≤ c ∧ c ≤ '9' then some (c.toNat - '0'.toNat)
  else if 'a' ≤ c ∧ c ≤ 'f' then some (c.toNat - 'a'.toNat + 10)
  else if 'A' ≤ c ∧ c ≤ 'F' then some (c.toNat - 'A'.toNat + 10)
  else none

/-- Accumulate the longest prefix of hexadecimal digits into a value. -/
def hexDigitsLoop : List Char → ℕ → ℕ
  | [], acc => acc
  | c :: rest, acc =>
    match hexDigitVal c with
    | some d => hexDigitsLoop rest (16 * acc + d)
    | none => acc

/-- Value of the longest nonempty prefix of hexadecimal digits, if any. -/
def hexDigitsVal : List Char → Option ℕ
  | [] => none
  | c :: rest =>
    match hexDigitVal c with
    | some d => some (hexDigitsLoop rest d)
    | none => none

/-- Strip an optional `0x` / `0X` prefix, as `parseInt` with radix 16 does. -/
def strip0x : List Char → List Char
  | '0' :: 'x' :: rest => rest
  | '0' :: 'X' :: rest => rest
  | cs => cs

def parseIntBody (neg : Bool) (cs : List Char) : JsNum :=
  match hexDigitsVal (strip0x cs) with
  | some n => JsNum.val (if neg then -(n : ℚ) else (n : ℚ))
  | none => JsNum.nan

/-- JavaScript `parseInt(s, 16)`: skip leading whitespace, read an optional
sign and an optional `0x`/`0X` prefix, then the longest prefix of hex digits;
the result is NaN when that prefix is empty. -/
def jsParseIntHex (cs : List Char) : JsNum :=
  match cs.dropWhile isJsSpace with
  | '-' :: rest => parseIntBody true rest
  | '+' :: rest => parseIntBody false rest
  | rest => parseIntBody false rest

/-- JavaScript `s.substring(a, b)` for `a ≤ b`: the characters in `[a, b)`,
clamped to the length of the string. -/
def jsSubstring (cs : List Char) (a b : ℕ) : List Char := (cs.drop a).take (b - a)

/-- The effect of `hex.replace(/^#/, "")`: drop at most one leading `#`. -/
def stripLeadingHash : List Char → List Char
  | '#' :: rest => rest
  | cs => cs

/-- JavaScript `Math.round`: round half toward positive infinity. -/
def jsRound (q : ℚ) : ℤ := ⌊q + 1/2⌋

/-- JavaScript `%` with right operand 12; the left operand is nonnegative at
every use in this development, where `%` agrees with the floor-based
remainder (JavaScript `%` truncates toward zero). -/
def jsMod12 (a : ℚ) : ℚ := a - 12 * ⌊a / 12⌋

/-- Whether `pre` is a prefix of `cs`. -/
def listIsPre : List Char → List Char → Bool
  | [], _ => true
  | _ :: _, [] => false
  | p :: ps, c :: cs => p = c && listIsPre ps cs

/-- Whether `needle` occurs contiguously inside `hay`. -/
def listHasSub (hay needle : List Char) : Bool :=
  match hay with
  | [] => needle = []
  | _ :: rest => listIsPre needle hay || listHasSub rest needle

/-- JavaScript `String.prototype.includes`. -/
def strIncludes (hay needle : String) : Bool := listHasSub hay.toList needle.toList

/-- JavaScript `String.prototype.endsWith`. -/
def strEndsWith (s suffix : String) : Bool := listIsPre suffix.toList.reverse s.toList.reverse

/-- JavaScript `String.prototype.startsWith`. -/
def strStartsWith (s pre : String) : Bool := listIsPre pre.toList s.toList

/-- JavaScript `String.prototype.trim`. -/
def jsTrim (s : String) : String :=
  ⟨((s.toList.dropWhile isJsSpace).reverse.dropWhile isJsSpace).reverse⟩

/-! ## Color value types -/

/-- An HSL triple of plain (non-NaN) JavaScript numbers. -/
structure HSL where
  h : ℚ
  s : ℚ
  l : ℚ
deriving DecidableEq, Repr

/-- An HSL triple of JavaScript numbers that may be NaN (result of `hexToHsl`). -/
structure JsHSL where
  h : JsNum
  s : JsNum
  l : JsNum
deriving DecidableEq, Repr

/-- An RGB triple of rounded (integer) channels, as produced by `hslToRgb`. -/
structure RGBi where
  r : ℤ
  g : ℤ
  b : ℤ
deriving DecidableEq, Repr

/-- An RGB triple of plain JavaScript numbers, as produced by `parseRgbValue`. -/
structure RGB where
  r : ℚ
  g : ℚ
  b : ℚ
deriving DecidableEq, Repr

/-! ## ColorModel: conversions (src/unnamed/part_000) -/

/-- The RGB→HSL arithmetic shared verbatim by `hexToHsl` (part_000 lines
226–249) and `rgbToHsl` (lines 298–327), on channels already normalised to
`[0,1]`: `l = (max+min)/2`; if `max !== min` then `s` branches on `l > 0.5`
and `h` is the channel-wise piecewise formula (the `switch (max)` tries the
`r`, `g`, `b` cases in that order, which strict equality turns into the
if-chain below); the result is scaled to degrees and percentages.
JavaScript division by zero is not modelled: for channels in `[0,1]` with
`max ≠ min` every denominator below is nonzero. -/
def hslOfChannels (r g b : ℚ) : HSL :=
  let mx := max r (max g b)
  let mn := min r (min g b)
  let l := (mx + mn) / 2
  if mx ≠ mn then
    let d := mx - mn
    let s := if l > 1/2 then d / (2 - mx - mn) else d / (mx + mn)
    let h :=
      if mx = r then (g - b) / d + (if g < b then (6 : ℚ) else 0)
      else if mx = g then (b - r) / d + 2
      else if mx = b then (r - g) / d + 4
      else 0
    let h := h / 6
    ⟨h * 360, s * 100, l * 100⟩
  else
    ⟨0 * 360, 0 * 100, l * 100⟩

/-- `rgbToHsl(r, g, b)` (part_000 lines 288–328): normalise the channels to
`[0,1]` and apply the shared RGB→HSL arithmetic. -/
def rgbToHsl (r g b : ℚ) : HSL := hslOfChannels (r / 255) (g / 255) (b / 255)

/-- `hexToHsl(hex)` (part_000 lines 220–250): drop one leading `#`, parse the
three 2-character channel substrings with `parseInt(·, 16)` (NaN when a
substring has no parseable prefix), divide by 255, and run the same
max/min/l/s/h arithmetic as `rgbToHsl`, here over NaN-aware numbers.  The
`switch (max)` matches no case when `max` is NaN, leaving `h = 0`, and
`max !== min` is true when either side is NaN. -/
def hexToHsl (hex : String) : JsHSL :=
  let cs := stripLeadingHash hex.toList
  let r := jsDiv (jsParseIntHex (jsSubstring cs 0 2)) (JsNum.val 255)
  let g := jsDiv (jsParseIntHex (jsSubstring cs 2 4)) (JsNum.val 255)
  let b := jsDiv (jsParseIntHex (jsSubstring cs 4 6)) (JsNum.val 255)
  let mx := jsMax r (jsMax g b)
  let mn := jsMin r (jsMin g b)
  let l := jsDiv (jsAdd mx mn) (JsNum.val 2)
  if jsStrictNe mx mn then
    let d := jsSub mx mn
    let s :=
      if jsGt l (JsNum.val (1/2)) then jsDiv d (jsSub (jsSub (JsNum.val 2) mx) mn)
      else jsDiv d (jsAdd mx mn)
    let h :=
      if jsStrictEq mx r then
        jsAdd (jsDiv (jsSub g b) d) (if jsLt g b then JsNum.val 6 else JsNum.val 0)
      else if jsStrictEq mx g then jsAdd (jsDiv (jsSub b r) d) (JsNum.val 2)
      else if jsStrictEq mx b then jsAdd (jsDiv (jsSub r g) d) (JsNum.val 4)
      else JsNum.val 0
    let h := jsDiv h (JsNum.val 6)
    ⟨jsMul h (JsNum.val 360), jsMul s (JsNum.val 100), jsMul l (JsNum.val 100)⟩
  else
    ⟨jsMul (JsNum.val 0) (JsNum.val 360), jsMul (JsNum.val 0) (JsNum.val 100),
      jsMul l (JsNum.val 100)⟩

/-- The `hue2rgb` helper of `hslToRgb` (part_000 lines 265–272), exactly as
written: branch thresholds `1/6`, `1/3`, `1/2` (the standard formula uses
`1/6`, `1/2`, `2/3`). -/
def hue2rgb (p q t0 : ℚ) : ℚ :=
  let t1 := if t0 < 0 then t0 + 1 else t0
  let t := if t1 > 1 then t1 - 1 else t1
  if t < 1/6 then p + (q - p) * 6 * t
  else if t < 1/3 then q
  else if t < 1/2 then p + (q - p) * (2/3 - t) * 6
  else p

/-- `hslToRgb(h, s, l)` (part_000 lines 252–286): normalise, branch on
`s === 0` (achromatic), else apply `hue2rgb` at `h + 1/3`, `h`, `h − 1/3`,
rounding each channel with `Math.round(· * 255)`. -/
def hslToRgb (h0 s0 l0 : ℚ) : RGBi :=
  let h := h0 / 360
  let s := s0 / 100
  let l := l0 / 100
  if s = 0 then ⟨jsRound (l * 255), jsRound (l * 255), jsRound (l * 255)⟩
  else
    let q := if l < 1/2 then l * (1 + s) else l + s - l * s
    let p := 2 * l - q
    ⟨jsRound (hue2rgb p q (h + 1/3) * 255), jsRound (hue2rgb p q h * 255),
      jsRound (hue2rgb p q (h - 1/3) * 255)⟩

/-! ## Regex-based parsers -/

/-- Value of one decimal digit character, if it is one (`\d` is `[0-9]`). -/
def digitVal (c : Char) : Option ℕ :=
  if '0' ≤ c ∧ c ≤ '9' then some (c.toNat - '0'.toNat) else none

/-- Accumulate a maximal run of decimal digits, returning the value and the rest. -/
def decDigitsLoop : List Char → ℕ → ℕ × List Char
  | [], acc => (acc, [])
  | c :: rest, acc =>
    match digitVal c with
    | some d => decDigitsLoop rest (10 * acc + d)
    | none => (acc, c :: rest)

/-- `(\d+)`: one or more decimal digits, maximal munch (equivalent to the
greedy regex here, since every context following `(\d+)` in the patterns
below starts with a non-digit). -/
def digits1 : List Char → Option (ℕ × List Char)
  | [] => none
  | c :: rest =>
    match digitVal c with
    | some d => some (decDigitsLoop rest d)
    | none => none

def expectChar (c : Char) : List Char → Option (List Char)
  | [] => none
  | x :: rest => if x = c then some rest else none

def expectChars : List Char → List Char → Option (List Char)
  | [], cs => some cs
  | p :: ps, cs =>
    match expectChar p cs with
    | some rest => expectChars ps rest
    | none => none

/-- The regex `/^hsl\((\d+),\s*(\d+)%,\s*(\d+)%\)$/` as a matcher returning
the three captured integer components (`\s*` consumes a maximal run of
whitespace, equivalent to the greedy regex since `\d` never matches a
whitespace character). -/
def hslMatch (cs : List Char) : Option (ℕ × ℕ × ℕ) := do
  let cs ← expectChars "hsl(".toList cs
  let (h, cs) ← digits1 cs
  let cs ← expectChar ',' cs
  let cs := cs.dropWhile isJsSpace
  let (s, cs) ← digits1 cs
  let cs ← expectChars "%,".toList cs
  let cs := cs.dropWhile isJsSpace
  let (l, cs) ← digits1 cs
  let cs ← expectChars "%)".toList cs
  if cs = [] then some (h, s, l) else none

/-- The regex `/^rgb\((\d+),\s*(\d+),\s*(\d+)\)$/` as a matcher. -/
def rgbMatch (cs : List Char) : Option (ℕ × ℕ × ℕ) := do
  let cs ← expectChars "rgb(".toList cs
  let (r, cs) ← digits1 cs
  let cs ← expectChar ',' cs
  let cs := cs.dropWhile isJsSpace
  let (g, cs) ← digits1 cs
  let cs ← expectChar ',' cs
  let cs := cs.dropWhile isJsSpace
  let (b, cs) ← digits1 cs
  let cs ← expectChar ')' cs
  if cs = [] then some (r, g, b) else none

/-- `parseHslValue(hsl)` (part_000 lines 200–208): on a regex mismatch, log
and return the fallback `{h: 0, s: 0, l: 50}` (the `console.error` side
effect is not modelled). -/
def parseHslValue (hsl : String) : HSL :=
  match hslMatch hsl.toList with
  | none => ⟨0, 0, 50⟩
  | some (h, s, l) => ⟨(h : ℚ), (s : ℚ), (l : ℚ)⟩

/-- `parseRgbValue(rgb)` (part_000 lines 210–218): fallback `{r:0, g:0, b:0}`
on mismatch. -/
def parseRgbValue (rgb : String) : RGB :=
  match rgbMatch rgb.toList with
  | none => ⟨0, 0, 0⟩
  | some (r, g, b) => ⟨(r : ℚ), (g : ℚ), (b : ℚ)⟩

/-! ## hslToHex (part_000 lines 409–428) -/

/-- `padStart(2, "0")` on a character list. -/
def padStart2 (cs : List Char) : List Char := List.replicate (2 - cs.length) '0' ++ cs

/-- JavaScript `Number.prototype.toString(16)` for the integers produced by
`Math.round` here: lowercase hex digits, a leading `-` for negative values. -/
def intToHexChars (i : ℤ) : List Char :=
  if i < 0 then '-' :: Nat.toDigits 16 i.natAbs else Nat.toDigits 16 i.toNat

/-- The clamp `max(min(k − 3, 9 − k, 1), −1)` from `hslToHex`'s helper. -/
def clampT (k : ℚ) : ℚ := max (min (min (k - 3) (9 - k)) 1) (-1)

/-- The closure `f(n)` inside `hslToHex`: `k = (n + h/30) % 12`,
`color = l − a·max(min(k−3, 9−k, 1), −1)`, then
`Math.round(255·color).toString(16).padStart(2, "0")`.  Here `h` is the raw
parsed hue and `l`, `a` are the values already divided by 100.  The operand
of `%` is nonnegative (`h ≥ 0`), where `jsMod12` is exact. -/
def hslToHexF (h l a n : ℚ) : List Char :=
  padStart2 (intToHexChars (jsRound (255 * (l - a * clampT (jsMod12 (n + h / 30))))))

/-- The color value computed by `hslToHex`'s `f(n)` in terms of the parsed
integer components `h`, `s`, `l` (degrees and percentages). -/
def colorQ (h s l n : ℚ) : ℚ :=
  l / 100 - (s / 100 * min (l / 100) (1 - l / 100)) * clampT (jsMod12 (n + h / 30))

/-- `hslToHex(hsl)` (part_000 lines 409–428): parse with the strict
`hsl(H, S%, L%)` regex (fallback `"#000000"`), then the `a = s·min(l, 1−l)`
/ `k`-formulation evaluated at `n = 0, 8, 4`. -/
def hslToHex (hsl : String) : String :=
  match hslMatch hsl.toList with
  | none => "#000000"
  | some (h0, s0, l0) =>
    let h : ℚ := (h0 : ℚ)
    let s : ℚ := (s0 : ℚ) / 100
    let l : ℚ := (l0 : ℚ) / 100
    let a := s * min l (1 - l)
    ⟨'#' :: (hslToHexF h l a 0 ++ hslToHexF h l a 8 ++ hslToHexF h l a 4)⟩

/-! ## DOM model

The document head is the ordered list of injected style blocks; a style
block is an element with an `id` and a `textContent`.  Stylesheets are
modelled as rule lists that either are accessible or throw on access
(cross-origin); computed root-scope custom-property values and the body's
inline style are association lists. -/

structure StyleBlock where
  id : String
  textContent : String
deriving DecidableEq, Repr

inductive CssRule where
  | styleRule (props : List String) : CssRule
  | otherRule : CssRule
deriving DecidableEq, Repr

structure CssSheet where
  accessible : Bool
  rules : List CssRule
deriving DecidableEq, Repr

structure DomEnv where
  head : List StyleBlock
  sheets : List CssSheet
  rootVars : List (String × String)
  bodyStyle : List (String × String)
deriving DecidableEq, Repr

/-- `document.getElementById(i)` followed by `.remove()`: drop the first
block with the given id, if any. -/
def removeById : List StyleBlock → String → List StyleBlock
  | [], _ => []
  | blk :: rest, i => if blk.id = i then rest else blk :: removeById rest i

/-- Number of style blocks in the head carrying a given id. -/
def countById (head : List StyleBlock) (i : String) : ℕ :=
  (head.filter (fun blk => blk.id = i)).length

/-- `style.setProperty(name, value, "important")` on the body's inline
style: replace an existing declaration for `name`, else append one.  (Every
`setProperty` call in the source passes `"important"`, so the priority flag
is not modelled.) -/
def setBodyProp (style : List (String × String)) (name value : String) :
    List (String × String) :=
  if (style.lookup name).isSome then
    style.map (fun p => if p.1 = name then (name, value) else p)
  else style ++ [(name, value)]

/-- `style.removeProperty(name)` on the body's inline style. -/
def removeBodyProp (style : List (String × String)) (name : String) :
    List (String × String) :=
  style.filter (fun p => p.1 ≠ name)

/-! ## TagColorApplier (part_000 lines 54–75) -/

/-- One generated rule: `.tag[href="#<tag>"] { color: <color> !important; }`
with the tag and color interpolated verbatim (no escaping or validation). -/
def tagRuleCss (tag color : String) : String :=
  ".tag[href=\"#" ++ tag ++ "\"] \x7b color: " ++ color ++ " !important; \x7d"

/-- The `css` string accumulated by `applyTagColors`: one rule per entry of
the tag-color map, in iteration order. -/
def tagColorsCss (tagColors : List (String × String)) : String :=
  tagColors.foldl (fun css e => css ++ tagRuleCss e.1 e.2) ""

/-- `applyTagColors()` (part_000 lines 54–68): create a style element with
id `themed-tags-plugin-style`, append it to the document head, then set its
textContent to the generated css.  The tag-color map is modelled as an
association list in key insertion order (the `for … in` iteration order for
non-index keys).  Nothing removes a previously appended block. -/
def applyTagColors (head : List StyleBlock) (tagColors : List (String × String)) :
    List StyleBlock :=
  head ++ [⟨"themed-tags-plugin-style", tagColorsCss tagColors⟩]

/-- `removeTagColors()` (part_000 lines 70–75): remove the first block with
the tag-style id, if present. -/
def removeTagColors (head : List StyleBlock) : List StyleBlock :=
  removeById head "themed-tags-plugin-style"

/-! ## AccentVariableDiscovery (part_000 lines 168–198) -/

/-- `Set.prototype.add` followed by `Array.from`: insertion-order
deduplication. -/
def addUnique (acc : List String) (x : String) : List String :=
  if x ∈ acc then acc else acc ++ [x]

/-- `getAccentVariables()` (part_000 lines 168–192): over every stylesheet,
`Array.from(sheet.cssRules)` throws for an inaccessible (cross-origin)
sheet, which the `try`/`catch` skips silently; in each accessible
`CSSStyleRule`, every positionally enumerated declared property name
containing the substring `"accent"` is added to the set, exactly as
enumerated (nothing strips a leading `--`). -/
def getAccentVariables (sheets : List CssSheet) : List String :=
  sheets.foldl
    (fun acc sheet =>
      if sheet.accessible then
        sheet.rules.foldl
          (fun acc rule =>
            match rule with
            | CssRule.styleRule props =>
              props.foldl
                (fun acc name =>
                  if strIncludes name "accent" then addUnique acc name else acc)
                acc
            | CssRule.otherRule => acc)
          acc
      else acc)
    []

/-- `getCssVariableValue(variable)` (part_000 lines 194–198): the computed
root-scope value of `--<variable>` (empty string when the property is not
defined), trimmed. -/
def getCssVariableValue (rootVars : List (String × String)) (varName : String) : String :=
  jsTrim (((rootVars.lookup ("--" ++ varName)).getD ""))

/-! ## ThemeColorApplier (part_000 lines 98–166) -/

/-- Template-literal rendering of a JavaScript number.  Exact for NaN and
for integer values (the only values rendered in the theorems below); a
non-integer rational is rendered as `num/den`, where JavaScript would print
a decimal expansion (no claim depends on that case). -/
def qToString (q : ℚ) : String :=
  if q.den = 1 then toString q.num else toString q.num ++ "/" ++ toString q.den

def jsNumToString : JsNum → String
  | JsNum.nan => "NaN"
  | JsNum.val q => qToString q

/-- Numeric value of a `JsNum` where the source feeds `hexToHsl` components
into `hslToRgb`.  In JavaScript a NaN component would propagate; the
theorems below only reach this path at valid hex colors, where every
component is a plain number. -/
def jsNumToQ : JsNum → ℚ
  | JsNum.nan => 0
  | JsNum.val q => q

/-- The body of the `accentVariables.forEach` loop in `setFileThemeColor`
(part_000 lines 104–139), as the optional emitted declaration
`(--<variable>, newValue)`: skip when the resolved value is empty or
contains `var(`; then branch on the `-h` / `-s` suffixes, the `-rgb`
suffix (preserve the original lightness, retake hue and saturation), the
`hsl(` value shape (same preservation), and otherwise skip. -/
def accentOverride (hslColor : JsHSL) (rootVars : List (String × String))
    (varName : String) : Option (String × String) :=
  let originalValue := getCssVariableValue rootVars varName
  if !(strIncludes originalValue "var(") && originalValue ≠ "" then
    if strEndsWith varName "-h" || strEndsWith varName "-s" then
      if strEndsWith varName "-h" then
        some ("--" ++ varName, jsNumToString hslColor.h)
      else some ("--" ++ varName, jsNumToString hslColor.s ++ "%")
    else if strEndsWith varName "-rgb" then
      let p := parseRgbValue originalValue
      let hslParts := rgbToHsl p.r p.g p.b
      let c := hslToRgb (jsNumToQ hslColor.h) (jsNumToQ hslColor.s) hslParts.l
      some ("--" ++ varName,
        "rgb(" ++ toString c.r ++ ", " ++ toString c.g ++ ", " ++ toString c.b ++ ")")
    else if strStartsWith originalValue "hsl(" then
      let hslParts := parseHslValue originalValue
      some ("--" ++ varName,
        "hsl(" ++ jsNumToString hslColor.h ++ ", " ++ jsNumToString hslColor.s ++ "%, "
          ++ qToString hslParts.l ++ "%)")
    else none
  else none

/-- The override declarations collected by `setFileThemeColor`'s loop, in
discovery order. -/
def overrideDecls (hslColor : JsHSL) (env : DomEnv) : List (String × String) :=
  (getAccentVariables env.sheets).filterMap (accentOverride hslColor env.rootVars)

/-- `setFileThemeColor(color)` (part_000 lines 98–155): convert the color
with `hexToHsl`, build one `:root { … }` block of `!important` declarations
out of the emitted overrides, create a style element with id
`themed-tags-file-theme-color` and append it to the head (nothing removes a
previously appended block), then set `--accent-h` / `--accent-s` directly on
the body's inline style. -/
def setFileThemeColor (color : String) (env : DomEnv) : DomEnv :=
  let hslColor := hexToHsl color
  let decls := overrideDecls hslColor env
  let css := decls.foldl (fun acc d => acc ++ d.1 ++ ": " ++ d.2 ++ " !important;")
    ":root \x7b" ++ " \x7d"
  { env with
    head := env.head ++ [⟨"themed-tags-file-theme-color", css⟩]
    bodyStyle :=
      setBodyProp (setBodyProp env.bodyStyle "--accent-h" (jsNumToString hslColor.h))
        "--accent-s" (jsNumToString hslColor.s ++ "%") }

/-- `removeFileThemeColor()` (part_000 lines 157–166): remove the first
block with the theme-color id, if present, and clear the two body
properties. -/
def removeFileThemeColor (env : DomEnv) : DomEnv :=
  { env with
    head := removeById env.head "themed-tags-file-theme-color"
    bodyStyle := removeBodyProp (removeBodyProp env.bodyStyle "--accent-h") "--accent-s" }

/-! ## A tokenization-level CSS validity check (for C10)

Modelled from the CSS Syntax Module (not from the repository): a rule list
is well-formed when it is a sequence of rules, each a nonempty selector
followed by a brace-balanced block, with every double-quoted string
terminated and newline-free (an unescaped newline ends a CSS string as a
bad-string token).  Single-quoted strings and comments are omitted — the
generator under verification never emits them. -/

/-- Scanner state: remaining input, brace depth, whether selector text has
been seen since the last rule ended, whether inside a double-quoted string. -/
def cssScan : List Char → ℕ → Bool → Bool → Bool
  | [], depth, seenSel, inStr => !inStr && depth = 0 && !seenSel
  | c :: rest, depth, seenSel, true =>
    if c = '"' then cssScan rest depth seenSel false
    else if c = '\\' then
      match rest with
      | [] => false
      | _ :: rest2 => cssScan rest2 depth seenSel true
    else if c = '\n' then false
    else cssScan rest depth seenSel true
  | c :: rest, depth, seenSel, false =>
    if c = '"' then cssScan rest depth true true
    else if c = '{' then
      match depth with
      | 0 => seenSel && cssScan rest 1 seenSel false
      | d + 1 => cssScan rest (d + 2) seenSel false
    else if c = '}' then
      match depth with
      | 0 => false
      | 1 => cssScan rest 0 false false
      | d + 2 => cssScan rest (d + 1) seenSel false
    else if depth = 0 && !isJsSpace c then cssScan rest 0 true false
    else cssScan rest depth seenSel false

/-- Whether a CSS rule list parses at the tokenization level. -/
def cssRuleListOk (css : String) : Bool := cssScan css.toList 0 false false

/-! ## The C4 round trip

`hexToHsl` produces fractional components while `hslToHex` only parses
integer components, so the round trip of C4 rounds each component to the
nearest integer (`Math.round`) before rendering the `hsl(H, S%, L%)`
string. -/

def isHexDigitB (c : Char) : Bool := (hexDigitVal c).isSome

/-- A 6-hex-digit color string, with or without a leading `#`. -/
def validHex6 (H : String) : Bool :=
  let cs := stripLeadingHash H.toList
  cs.length = 6 && cs.all isHexDigitB

/-- The channel values named by a valid hex string. -/
def hexPairVal (c0 c1 : Char) : ℕ := 16 * ((hexDigitVal c0).getD 0) + (hexDigitVal c1).getD 0

def hexChannelsOf (H : String) : ℕ × ℕ × ℕ :=
  match stripLeadingHash H.toList with
  | c0 :: c1 :: c2 :: c3 :: c4 :: c5 :: _ =>
    (hexPairVal c0 c1, hexPairVal c2 c3, hexPairVal c4 c5)
  | _ => (0, 0, 0)

/-- Hex rendering of three channels in `[0,255]`, matching the rendering
`hslToHex` uses for its output. -/
def hexRender (r g b : ℕ) : String :=
  ⟨'#' :: (padStart2 (Nat.toDigits 16 r) ++ padStart2 (Nat.toDigits 16 g)
    ++ padStart2 (Nat.toDigits 16 b))⟩

/-- One decimal digit character. -/
def decDigitChar (d : ℕ) : Char := Char.ofNat (48 + d)

/-- Standard most-significant-first decimal numeral of a natural number. -/
def decRender (n : ℕ) : List Char :=
  if _hn : n < 10 then [decDigitChar n]
  else decRender (n / 10) ++ [decDigitChar (n % 10)]
decreasing_by exact Nat.div_lt_self (by omega) (by omega)

def decRenderStr (n : ℕ) : String := ⟨decRender n⟩

/-- The C4 round trip: `hexToHsl`, round each component to the nearest
integer, render the `hsl(H, S%, L%)` string, and convert back with
`hslToHex`.  The NaN arm is unreachable for valid hex strings. -/
def roundTripHex (H : String) : String :=
  match hexToHsl H with
  | ⟨JsNum.val h, JsNum.val s, JsNum.val l⟩ =>
    hslToHex ("hsl(" ++ decRenderStr (jsRound h).toNat ++ ", " ++ decRenderStr (jsRound s).toNat
      ++ "%, " ++ decRenderStr (jsRound l).toNat ++ "%)")
  | _ => "#000000"

/-! ## Reduction lemmas for JavaScript numbers -/

@[simp] theorem jsAdd_val_val (a b : ℚ) : jsAdd (JsNum.val a) (JsNum.val b) = JsNum.val (a + b) := rfl

@[simp] theorem jsAdd_nan_left (x : JsNum) : jsAdd JsNum.nan x = JsNum.nan := by cases x <;> rfl

@[simp] theorem jsAdd_nan_right (x : JsNum) : jsAdd x JsNum.nan = JsNum.nan := by cases x <;> rfl

@[simp] theorem jsSub_val_val (a b : ℚ) : jsSub (JsNum.val a) (JsNum.val b) = JsNum.val (a - b) := rfl

@[simp] theorem jsSub_nan_left (x : JsNum) : jsSub JsNum.nan x = JsNum.nan := by cases x <;> rfl

@[simp] theorem jsSub_nan_right (x : JsNum) : jsSub x JsNum.nan = JsNum.nan := by cases x <;> rfl

@[simp] theorem jsMul_val_val (a b : ℚ) : jsMul (JsNum.val a) (JsNum.val b) = JsNum.val (a * b) := rfl

@[simp] theorem jsMul_nan_left (x : JsNum) : jsMul JsNum.nan x = JsNum.nan := by cases x <;> rfl

@[simp] theorem jsMul_nan_right (x : JsNum) : jsMul x JsNum.nan = JsNum.nan := by cases x <;> rfl

@[simp] theorem jsDiv_val_val (a b : ℚ) : jsDiv (JsNum.val a) (JsNum.val b) = JsNum.val (a / b) := rfl

@[simp] theorem jsDiv_nan_left (x : JsNum) : jsDiv JsNum.nan x = JsNum.nan := by cases x <;> rfl

@[simp] theorem jsDiv_nan_right (x : JsNum) : jsDiv x JsNum.nan = JsNum.nan := by cases x <;> rfl

@[simp] theorem jsMax_val_val (a b : ℚ) : jsMax (JsNum.val a) (JsNum.val b) = JsNum.val (max a b) := rfl

@[simp] theorem jsMax_nan_left (x : JsNum) : jsMax JsNum.nan x = JsNum.nan := by cases x <;> rfl

@[simp] theorem jsMax_nan_right (x : JsNum) : jsMax x JsNum.nan = JsNum.nan := by cases x <;> rfl

@[simp] theorem jsMin_val_val (a b : ℚ) : jsMin (JsNum.val a) (JsNum.val b) = JsNum.val (min a b) := rfl

@[simp] theorem jsMin_nan_left (x : JsNum) : jsMin JsNum.nan x = JsNum.nan := by cases x <;> rfl

@[simp] theorem jsMin_nan_right (x : JsNum) : jsMin x JsNum.nan = JsNum.nan := by cases x <;> rfl

@[simp] theorem jsLt_val_val (a b : ℚ) : jsLt (JsNum.val a) (JsNum.val b) = decide (a < b) := rfl

@[simp] theorem jsLt_nan_left (x : JsNum) : jsLt JsNum.nan x = false := by cases x <;> rfl

@[simp] theorem jsLt_nan_right (x : JsNum) : jsLt x JsNum.nan = false := by cases x <;> rfl

@[simp] theorem jsGt_val_val (a b : ℚ) : jsGt (JsNum.val a) (JsNum.val b) = decide (b < a) := rfl

@[simp] theorem jsGt_nan_left (x : JsNum) : jsGt JsNum.nan x = false := by cases x <;> rfl

@[simp] theorem jsGt_nan_right (x : JsNum) : jsGt x JsNum.nan = false := by cases x <;> rfl

@[simp] theorem jsStrictEq_val_val (a b : ℚ) :
    jsStrictEq (JsNum.val a) (JsNum.val b) = decide (a = b) := rfl

@[simp] theorem jsStrictEq_nan_left (x : JsNum) : jsStrictEq JsNum.nan x = false := by
  cases x <;> rfl

@[simp] theorem jsStrictEq_nan_right (x : JsNum) : jsStrictEq x JsNum.nan = false := by
  cases x <;> rfl

/-! ## Generic helper lemmas -/

lemma str_append_left_cancel {s a b : String} (h : s ++ a = s ++ b) : a = b := by
  have h2 : s.data ++ a.data = s.data ++ b.data := congrArg String.data h
  have h3 : a.data = b.data := List.append_cancel_left h2
  cases a
  cases b
  exact congrArg String.mk h3

lemma tagColorsCss_foldl (m : List (String × String)) (acc : String) :
    m.foldl (fun css e => css ++ tagRuleCss e.1 e.2) acc = acc ++ tagColorsCss m := by
  induction m generalizing acc with
  | nil => simp [tagColorsCss, String.append_empty]
  | cons e rest ih =>
    simp only [tagColorsCss, List.foldl_cons] at *
    rw [ih]
    have hne : ("" : String) ++ tagRuleCss e.1 e.2 = tagRuleCss e.1 e.2 := rfl
    rw [hne, ih (tagRuleCss e.1 e.2), String.append_assoc]

/-- Reduction of `hexToHsl` to the shared channel arithmetic when all three
channel substrings parse to plain numbers. -/
lemma hexToHsl_of_val (hex : String) (qr qg qb : ℚ)
    (hr : jsParseIntHex (jsSubstring (stripLeadingHash hex.toList) 0 2) = JsNum.val qr)
    (hg : jsParseIntHex (jsSubstring (stripLeadingHash hex.toList) 2 4) = JsNum.val qg)
    (hb : jsParseIntHex (jsSubstring (stripLeadingHash hex.toList) 4 6) = JsNum.val qb) :
    hexToHsl hex = ⟨JsNum.val (hslOfChannels (qr / 255) (qg / 255) (qb / 255)).h,
      JsNum.val (hslOfChannels (qr / 255) (qg / 255) (qb / 255)).s,
      JsNum.val (hslOfChannels (qr / 255) (qg / 255) (qb / 255)).l⟩ := by
  simp only [hexToHsl, hslOfChannels, hr, hg, hb, jsDiv_val_val, jsMax_val_val, jsMin_val_val,
    jsAdd_val_val, jsSub_val_val, jsMul_val_val, jsStrictNe, jsStrictEq_val_val, jsGt_val_val,
    jsLt_val_val, Bool.not_eq_true', decide_eq_false_iff_not, decide_eq_true_eq, gt_iff_lt, ne_eq]
  split_ifs <;> rfl

/-- Any declaration emitted by the accent-override loop carries the name
`--<variable>` of its variable, and its variable passed the skip guard. -/
lemma accentOverride_parts (hslColor : JsHSL) (rootVars : List (String × String))
    (v : String) (d : String × String) (hd : accentOverride hslColor rootVars v = some d) :
    d.1 = "--" ++ v ∧ strIncludes (getCssVariableValue rootVars v) "var(" = false ∧
      getCssVariableValue rootVars v ≠ "" := by
  simp only [accentOverride] at hd
  split_ifs at hd with h1 h2 h3 h4 h5 <;>
    first
    | exact Option.noConfusion hd
    | (injection hd with hd'
       subst hd'
       simp only [Bool.and_eq_true, Bool.not_eq_true', decide_eq_true_eq] at h1
       exact ⟨rfl, h1.1, h1.2⟩)

/-! ## Claim theorems -/

/-- C1: the spec claims that calling `setFileThemeColor` twice in a row
leaves exactly one theme-color style block.  The code appends a fresh style
element with id `themed-tags-file-theme-color` on every call and never
removes the previous one: after `setFileThemeColor("#ff0000")` then
`setFileThemeColor("#00ff00")` the document head holds two blocks with that
id. -/
theorem c1_setFileThemeColor_appends_duplicate :
    countById ((setFileThemeColor "#00ff00" (setFileThemeColor "#ff0000"
      ⟨[], [], [], []⟩)).head) "themed-tags-file-theme-color" = 2 := by decide

/-- C2: the spec claims `applyTagColors` replaces the previous block, so that
`applyTagColors(m1)` then `applyTagColors({})` yields zero generated rules.
The code appends a fresh `themed-tags-plugin-style` element on every call:
after the two calls, two blocks with that id are present, and the first
still carries `m1`'s rules. -/
theorem c2_applyTagColors_appends_duplicate :
    applyTagColors (applyTagColors [] [("project", "#ff0000"), ("done", "#00ff00")]) [] =
      [⟨"themed-tags-plugin-style", tagRuleCss "project" "#ff0000" ++ tagRuleCss "done" "#00ff00"⟩,
        ⟨"themed-tags-plugin-style", ""⟩] ∧
    countById (applyTagColors (applyTagColors []
      [("project", "#ff0000"), ("done", "#00ff00")]) []) "themed-tags-plugin-style" = 2 := by
  constructor <;> decide

/-- C3 counterexample: the claim says `hexToHsl` fails with a fallback value
or a ParseError on malformed input and never returns NaN components; on
`"zzzzzz"` (not hex digits) it returns `{h: 0, s: NaN, l: NaN}`. -/
theorem c3_counterexample_nan_hsl :
    hexToHsl "zzzzzz" = ⟨JsNum.val 0, JsNum.nan, JsNum.nan⟩ := by
  have hr : jsParseIntHex (jsSubstring (stripLeadingHash "zzzzzz".toList) 0 2) = JsNum.nan := by
    decide
  have hg : jsParseIntHex (jsSubstring (stripLeadingHash "zzzzzz".toList) 2 4) = JsNum.nan := by
    decide
  have hb : jsParseIntHex (jsSubstring (stripLeadingHash "zzzzzz".toList) 4 6) = JsNum.nan := by
    decide
  simp only [hexToHsl, hr, hg, hb, jsDiv_nan_left, jsMax_nan_left, jsMin_nan_left,
    jsAdd_nan_left, jsSub_nan_left, jsMul_nan_left, jsStrictNe, jsStrictEq_nan_left,
    jsGt_nan_left, jsStrictEq_nan_right, Bool.not_false, if_true]
  norm_num

/-- C3 amended: `hexToHsl` never throws (it is a total function), but applies
no validation and no fallback: whenever any of the three 2-character channel
substrings has no parseable hex prefix, it returns `{h: 0, s: NaN, l: NaN}`
rather than a fallback value or an error; other malformed inputs (for
example longer strings whose first six characters are hex digits) are
silently misinterpreted by prefix parsing. -/
theorem c3_amended_no_fallback_nan (hex : String)
    (h : jsParseIntHex (jsSubstring (stripLeadingHash hex.toList) 0 2) = JsNum.nan ∨
      jsParseIntHex (jsSubstring (stripLeadingHash hex.toList) 2 4) = JsNum.nan ∨
      jsParseIntHex (jsSubstring (stripLeadingHash hex.toList) 4 6) = JsNum.nan) :
    hexToHsl hex = ⟨JsNum.val 0, JsNum.nan, JsNum.nan⟩ := by
  rcases e1 : jsParseIntHex (jsSubstring (stripLeadingHash hex.toList) 0 2) with _ | q1 <;>
  rcases e2 : jsParseIntHex (jsSubstring (stripLeadingHash hex.toList) 2 4) with _ | q2 <;>
  rcases e3 : jsParseIntHex (jsSubstring (stripLeadingHash hex.toList) 4 6) with _ | q3 <;>
    first
    | (simp only [hexToHsl, e1, e2, e3, jsDiv_nan_left, jsDiv_nan_right, jsDiv_val_val,
        jsMax_nan_left, jsMax_nan_right, jsMax_val_val, jsMin_nan_left, jsMin_nan_right,
        jsMin_val_val, jsAdd_nan_left, jsAdd_nan_right, jsAdd_val_val, jsSub_nan_left,
        jsSub_nan_right, jsSub_val_val, jsMul_nan_left, jsMul_nan_right, jsMul_val_val,
        jsStrictNe, jsStrictEq_nan_left, jsStrictEq_nan_right, jsGt_nan_left, jsGt_nan_right,
        jsLt_nan_left, jsLt_nan_right, Bool.not_false, if_true]
       norm_num
       done)
    | (exfalso
       rcases h with h | h | h
       · rw [e1] at h
         exact JsNum.noConfusion h
       · rw [e2] at h
         exact JsNum.noConfusion h
       · rw [e3] at h
         exact JsNum.noConfusion h)

/-- C3 witness: the amended theorem applied at `"12zz34"`, whose middle
channel substring `"zz"` fails hex parsing. -/
theorem c3_amended_no_fallback_nan_witness :
    hexToHsl "12zz34" = ⟨JsNum.val 0, JsNum.nan, JsNum.nan⟩ :=
  c3_amended_no_fallback_nan "12zz34" (Or.inr (Or.inl (by decide)))

/-- C5: the round trip `rgbToHsl ∘ hslToRgb` cannot reproduce in-range HSL
values because `hslToRgb`'s `hue2rgb` uses branch thresholds `1/6, 1/3, 1/2`
instead of the standard `1/6, 1/2, 2/3`: already at `(h,s,l) = (0,100,50)`
(pure red) it returns `r = 510`, outside `[0,255]`, so the claimed
reproduction of `(h,s,l)` fails (the spec itself requires each output
channel to land in `[0,255]`). -/
theorem c5_hslToRgb_out_of_range : hslToRgb 0 100 50 = ⟨510, 0, 0⟩ := by
  norm_num [hslToRgb, hue2rgb, jsRound]

/-- C6: `hexToHsl` maps the three sRGB primaries to their exact HSL values. -/
theorem c6_hexToHsl_primaries :
    hexToHsl "#ff0000" = ⟨JsNum.val 0, JsNum.val 100, JsNum.val 50⟩ ∧
    hexToHsl "#00ff00" = ⟨JsNum.val 120, JsNum.val 100, JsNum.val 50⟩ ∧
    hexToHsl "#0000ff" = ⟨JsNum.val 240, JsNum.val 100, JsNum.val 50⟩ := by
  refine ⟨?_, ?_, ?_⟩
  · have hr : jsParseIntHex (jsSubstring (stripLeadingHash "#ff0000".toList) 0 2)
        = JsNum.val 255 := by decide
    have hg : jsParseIntHex (jsSubstring (stripLeadingHash "#ff0000".toList) 2 4)
        = JsNum.val 0 := by decide
    have hb : jsParseIntHex (jsSubstring (stripLeadingHash "#ff0000".toList) 4 6)
        = JsNum.val 0 := by decide
    rw [hexToHsl_of_val _ 255 0 0 hr hg hb]
    norm_num [hslOfChannels, max_def, min_def]
  · have hr : jsParseIntHex (jsSubstring (stripLeadingHash "#00ff00".toList) 0 2)
        = JsNum.val 0 := by decide
    have hg : jsParseIntHex (jsSubstring (stripLeadingHash "#00ff00".toList) 2 4)
        = JsNum.val 255 := by decide
    have hb : jsParseIntHex (jsSubstring (stripLeadingHash "#00ff00".toList) 4 6)
        = JsNum.val 0 := by decide
    rw [hexToHsl_of_val _ 0 255 0 hr hg hb]
    norm_num [hslOfChannels, max_def, min_def]
  · have hr : jsParseIntHex (jsSubstring (stripLeadingHash "#0000ff".toList) 0 2)
        = JsNum.val 0 := by decide
    have hg : jsParseIntHex (jsSubstring (stripLeadingHash "#0000ff".toList) 2 4)
        = JsNum.val 0 := by decide
    have hb : jsParseIntHex (jsSubstring (stripLeadingHash "#0000ff".toList) 4 6)
        = JsNum.val 255 := by decide
    rw [hexToHsl_of_val _ 0 0 255 hr hg hb]
    norm_num [hslOfChannels, max_def, min_def]

/-- C7: the spec claims discovery returns variable names with the leading
`--` removed; the code adds each enumerated property name as-is.  With one
accessible rule declaring `--accent-h` (and an inaccessible sheet that is
skipped silently), the result is `["--accent-h"]`, not `["accent-h"]`; the
consumer `getCssVariableValue` then prepends another `--`, so its lookup of
the discovered name misses and yields the empty string. -/
theorem c7_getAccentVariables_keeps_dashes :
    getAccentVariables [⟨true, [CssRule.styleRule ["--accent-h", "color"]]⟩,
      ⟨false, [CssRule.styleRule ["--accent-s"]]⟩] = ["--accent-h"] ∧
    getCssVariableValue [("--accent-h", "210")] "--accent-h" = "" := by
  constructor <;> decide

/-- C8: during `setFileThemeColor`, a discovered accent variable whose
resolved root-scope value is empty or contains `var(` contributes no
declaration to the injected style block: no emitted declaration carries its
`--`-prefixed name. -/
theorem c8_skipped_variables_not_overridden (color : String) (env : DomEnv) (v : String)
    (hv : getCssVariableValue env.rootVars v = "" ∨
      strIncludes (getCssVariableValue env.rootVars v) "var(" = true) :
    ∀ d ∈ overrideDecls (hexToHsl color) env, d.1 ≠ "--" ++ v := by
  intro d hd heq
  rw [overrideDecls] at hd
  obtain ⟨w, hw, hsome⟩ := List.mem_filterMap.mp hd
  obtain ⟨hname, hvar, hne⟩ := accentOverride_parts _ _ _ _ hsome
  have hwv : w = v := str_append_left_cancel (hname.symm.trans heq)
  subst hwv
  rcases hv with h | h
  · exact hne h
  · rw [hvar] at h
    exact Bool.false_ne_true h

/-- C8 witness: a concrete environment where the resolved value of
`accent-color` is `var(--x)`; no emitted declaration is named
`--accent-color`. -/
theorem c8_skipped_variables_not_overridden_witness :
    strIncludes (getCssVariableValue [("--accent-color", "var(--x)")] "accent-color")
      "var(" = true ∧
    ∀ d ∈ overrideDecls (hexToHsl "#ff0000")
      ⟨[], [⟨true, [CssRule.styleRule ["accent-color"]]⟩], [("--accent-color", "var(--x)")], []⟩,
      d.1 ≠ "--" ++ "accent-color" :=
  ⟨by decide,
    c8_skipped_variables_not_overridden "#ff0000"
      ⟨[], [⟨true, [CssRule.styleRule ["accent-color"]]⟩], [("--accent-color", "var(--x)")], []⟩
      "accent-color" (Or.inr (by decide))⟩

/-- C9: `parseHslValue` parses `hsl(200, 50%, 40%)` to `{h:200, s:50, l:40}`,
and on every string the strict regex rejects it returns the documented
fallback `{h:0, s:0, l:50}` (and, being a total function, never throws). -/
theorem c9_parseHslValue_strict_match_fallback :
    parseHslValue "hsl(200, 50%, 40%)" = ⟨200, 50, 40⟩ ∧
    parseHslValue "garbage" = ⟨0, 0, 50⟩ ∧
    ∀ s : String, hslMatch s.toList = none → parseHslValue s = ⟨0, 0, 50⟩ := by
  refine ⟨by decide, by decide, ?_⟩
  intro s h
  unfold parseHslValue
  rw [h]

/-- C9 witness: the fallback clause of the theorem applied at `"xyz"`. -/
theorem c9_parseHslValue_strict_match_fallback_witness :
    parseHslValue "xyz" = ⟨0, 0, 50⟩ :=
  c9_parseHslValue_strict_match_fallback.2.2 "xyz" (by decide)

/-- C10 counterexample: the claim says a tag containing `]` makes the
generated CSS malformed; in fact `]` is legal inside the double-quoted
attribute value, and the single rule generated for the tag `a]b` is
well-formed CSS. -/
theorem c10_counterexample_bracket_tag_wellformed :
    cssRuleListOk (tagColorsCss [("a]b", "#ff0000")]) = true := by decide

/-- C10 amended: `applyTagColors` interpolates each tag and color verbatim
(no escaping or validation) and the generated text is the concatenation of
one rule per entry, so it depends only on the entries; a tag containing a
double quote can break the CSS — a single such entry yields an unterminated
string — but a tag containing `]` does not, since `]` is legal inside the
quoted attribute value. -/
theorem c10_amended_verbatim_interpolation :
    (∀ t c : String, tagColorsCss [(t, c)]
      = ".tag[href=\"#" ++ t ++ "\"] \x7b color: " ++ c ++ " !important; \x7d") ∧
    (∀ m1 m2 : List (String × String),
      tagColorsCss (m1 ++ m2) = tagColorsCss m1 ++ tagColorsCss m2) ∧
    cssRuleListOk (tagColorsCss [("a\"b", "#ff0000")]) = false ∧
    cssRuleListOk (tagColorsCss [("x]y", "#00ff00")]) = true := by
  refine ⟨?_, ?_, by decide, by decide⟩
  · intro t c
    simp [tagColorsCss, tagRuleCss]
  · intro m1 m2
    show (m1 ++ m2).foldl _ "" = _
    rw [List.foldl_append, tagColorsCss_foldl, tagColorsCss_foldl]
    rfl

/-! ## Arithmetic helper lemmas for the C4 round trip -/

lemma clampT_abs_le_one (x : ℚ) : |clampT x| ≤ 1 := by
  unfold clampT
  rw [abs_le]
  refine ⟨le_max_right _ _, max_le (min_le_right _ _) (by norm_num)⟩

lemma clampT_lipschitz (x y : ℚ) : |clampT x - clampT y| ≤ |x - y| := by
  unfold clampT
  have h1 := abs_max_sub_max_le_max (min (min (x-3) (9-x)) 1) (-1 : ℚ)
    (min (min (y-3) (9-y)) 1) (-1 : ℚ)
  have h2 := abs_min_sub_min_le_max (min (x-3) (9-x)) (1 : ℚ) (min (y-3) (9-y)) (1 : ℚ)
  have h3 := abs_min_sub_min_le_max (x-3) (9-x) (y-3) (9-y)
  have e1 : (x - 3) - (y - 3) = x - y := by ring
  have e2 : (9 - x) - (9 - y) = -(x - y) := by ring
  rw [e1, e2, abs_neg] at h3
  simp only [sub_self, abs_zero] at h1 h2
  have h3' : max |x - y| |x - y| = |x - y| := max_self _
  rw [h3'] at h3
  calc |max (min (min (x-3) (9-x)) 1) (-1) - max (min (min (y-3) (9-y)) 1) (-1)|
      ≤ max |min (min (x-3) (9-x)) 1 - min (min (y-3) (9-y)) 1| 0 := h1
    _ = |min (min (x-3) (9-x)) 1 - min (min (y-3) (9-y)) 1| := max_eq_left (abs_nonneg _)
    _ ≤ max |min (x-3) (9-x) - min (y-3) (9-y)| 0 := h2
    _ = |min (x-3) (9-x) - min (y-3) (9-y)| := max_eq_left (abs_nonneg _)
    _ ≤ |x - y| := h3

lemma clampT_eq_neg_one {x : ℚ} (h : x ≤ 2 ∨ 10 ≤ x) : clampT x = -1 := by
  unfold clampT
  rcases h with h | h
  · exact max_eq_right (le_trans (le_trans (min_le_left _ _) (min_le_left _ _)) (by linarith))
  · exact max_eq_right (le_trans (le_trans (min_le_left _ _) (min_le_right _ _)) (by linarith))

lemma clampT_eq_one {x : ℚ} (h4 : 4 ≤ x) (h8 : x ≤ 8) : clampT x = 1 := by
  unfold clampT
  rw [min_eq_right (le_min (by linarith) (by linarith)), max_eq_left (by norm_num)]

lemma clampT_eq_rise {x : ℚ} (h2 : 2 ≤ x) (h4 : x ≤ 4) : clampT x = x - 3 := by
  unfold clampT
  rw [min_eq_left (show x - 3 ≤ 9 - x by linarith),
    min_eq_left (show x - 3 ≤ (1:ℚ) by linarith),
    max_eq_left (show (-1:ℚ) ≤ x - 3 by linarith)]

lemma clampT_eq_fall {x : ℚ} (h8 : 8 ≤ x) (h10 : x ≤ 10) : clampT x = 9 - x := by
  unfold clampT
  rw [min_eq_right (show 9 - x ≤ x - 3 by linarith),
    min_eq_left (show 9 - x ≤ (1:ℚ) by linarith),
    max_eq_left (show (-1:ℚ) ≤ 9 - x by linarith)]

lemma jsMod12_eq_self {x : ℚ} (h0 : 0 ≤ x) (h12 : x < 12) : jsMod12 x = x := by
  unfold jsMod12
  have hf : ⌊x / 12⌋ = 0 := by
    rw [Int.floor_eq_zero_iff]
    constructor
    · positivity
    · rw [div_lt_one (by norm_num)]
      linarith
  rw [hf]
  push_cast
  ring

lemma jsMod12_eq_sub {x : ℚ} (h12 : 12 ≤ x) (h24 : x < 24) : jsMod12 x = x - 12 := by
  unfold jsMod12
  have hf : ⌊x / 12⌋ = 1 := by
    rw [Int.floor_eq_iff]
    constructor
    · rw [le_div_iff₀ (by norm_num : (0:ℚ) < 12)]
      push_cast
      linarith
    · rw [div_lt_iff₀ (by norm_num : (0:ℚ) < 12)]
      push_cast
      linarith
  rw [hf]
  push_cast
  ring

lemma jsRound_sub_abs (q : ℚ) : |(jsRound q : ℚ) - q| ≤ 1/2 := by
  unfold jsRound
  have h1 : ((⌊q + 1/2⌋ : ℤ) : ℚ) ≤ q + 1/2 := Int.floor_le _
  have h2 : q + 1/2 < ⌊q + 1/2⌋ + 1 := Int.lt_floor_add_one _
  rw [abs_le]
  constructor <;> linarith

lemma jsRound_nonneg {q : ℚ} (h : 0 ≤ q) : 0 ≤ jsRound q :=
  Int.le_floor.mpr (by push_cast; linarith)

lemma jsRound_le_nat {q : ℚ} {B : ℕ} (h : q ≤ B) : jsRound q ≤ B := by
  unfold jsRound
  rw [Int.floor_le_iff]
  push_cast
  linarith

lemma T_sector_r_ge (u : ℚ) (h0 : 0 ≤ u) (h1 : u ≤ 1) :
    clampT (jsMod12 (0 + 2*u)) = -1 ∧
    clampT (jsMod12 (8 + 2*u)) = 1 - 2*u ∧
    clampT (jsMod12 (4 + 2*u)) = 1 := by
  refine ⟨?_, ?_, ?_⟩
  · rw [jsMod12_eq_self (by linarith) (by linarith)]
    exact clampT_eq_neg_one (Or.inl (by linarith))
  · rw [jsMod12_eq_self (by linarith) (by linarith), clampT_eq_fall (by linarith) (by linarith)]
    ring
  · rw [jsMod12_eq_self (by linarith) (by linarith)]
    exact clampT_eq_one (by linarith) (by linarith)

lemma T_sector_r_lt (u : ℚ) (h0 : -1 ≤ u) (h1 : u < 0) :
    clampT (jsMod12 (0 + (2*u + 12))) = -1 ∧
    clampT (jsMod12 (8 + (2*u + 12))) = 1 ∧
    clampT (jsMod12 (4 + (2*u + 12))) = 2*u + 1 := by
  refine ⟨?_, ?_, ?_⟩
  · rw [jsMod12_eq_self (by linarith) (by linarith)]
    exact clampT_eq_neg_one (Or.inr (by linarith))
  · rw [jsMod12_eq_sub (by linarith) (by linarith)]
    exact clampT_eq_one (by linarith) (by linarith)
  · rw [jsMod12_eq_sub (by linarith) (by linarith),
      clampT_eq_rise (by linarith) (by linarith)]
    ring

lemma T_sector_g_ge (v : ℚ) (h0 : 0 ≤ v) (h1 : v ≤ 1) :
    clampT (jsMod12 (0 + (2*v + 4))) = 1 ∧
    clampT (jsMod12 (8 + (2*v + 4))) = -1 ∧
    clampT (jsMod12 (4 + (2*v + 4))) = 1 - 2*v := by
  refine ⟨?_, ?_, ?_⟩
  · rw [jsMod12_eq_self (by linarith) (by linarith)]
    exact clampT_eq_one (by linarith) (by linarith)
  · rw [jsMod12_eq_sub (by linarith) (by linarith)]
    exact clampT_eq_neg_one (Or.inl (by linarith))
  · rw [jsMod12_eq_self (by linarith) (by linarith),
      clampT_eq_fall (by linarith) (by linarith)]
    ring

lemma T_sector_g_lt (v : ℚ) (h0 : -1 ≤ v) (h1 : v < 0) :
    clampT (jsMod12 (0 + (2*v + 4))) = 2*v + 1 ∧
    clampT (jsMod12 (8 + (2*v + 4))) = -1 ∧
    clampT (jsMod12 (4 + (2*v + 4))) = 1 := by
  refine ⟨?_, ?_, ?_⟩
  · rw [jsMod12_eq_self (by linarith) (by linarith),
      clampT_eq_rise (by linarith) (by linarith)]
    ring
  · rw [jsMod12_eq_self (by linarith) (by linarith)]
    exact clampT_eq_neg_one (Or.inr (by linarith))
  · rw [jsMod12_eq_self (by linarith) (by linarith)]
    exact clampT_eq_one (by linarith) (by linarith)

lemma T_sector_b_ge (w : ℚ) (h0 : 0 ≤ w) (h1 : w ≤ 1) :
    clampT (jsMod12 (0 + (2*w + 8))) = 1 - 2*w ∧
    clampT (jsMod12 (8 + (2*w + 8))) = 1 ∧
    clampT (jsMod12 (4 + (2*w + 8))) = -1 := by
  refine ⟨?_, ?_, ?_⟩
  · rw [jsMod12_eq_self (by linarith) (by linarith),
      clampT_eq_fall (by linarith) (by linarith)]
    ring
  · rw [jsMod12_eq_sub (by linarith) (by linarith)]
    exact clampT_eq_one (by linarith) (by linarith)
  · rw [jsMod12_eq_sub (by linarith) (by linarith)]
    exact clampT_eq_neg_one (Or.inl (by linarith))

lemma T_sector_b_lt (w : ℚ) (h0 : -1 ≤ w) (h1 : w < 0) :
    clampT (jsMod12 (0 + (2*w + 8))) = 1 ∧
    clampT (jsMod12 (8 + (2*w + 8))) = 2*w + 1 ∧
    clampT (jsMod12 (4 + (2*w + 8))) = -1 := by
  refine ⟨?_, ?_, ?_⟩
  · rw [jsMod12_eq_self (by linarith) (by linarith)]
    exact clampT_eq_one (by linarith) (by linarith)
  · rw [jsMod12_eq_sub (by linarith) (by linarith),
      clampT_eq_rise (by linarith) (by linarith)]
    ring
  · rw [jsMod12_eq_self (by linarith) (by linarith)]
    exact clampT_eq_neg_one (Or.inr (by linarith))

lemma a_eq_half_d (mx mn : ℚ) (h0 : 0 ≤ mn) (h2 : mx ≤ 1) (hlt : mn < mx) :
    (if (mx + mn) / 2 > 1/2 then (mx - mn) / (2 - mx - mn) else (mx - mn) / (mx + mn))
      * min ((mx + mn) / 2) (1 - (mx + mn) / 2) = (mx - mn) / 2 := by
  by_cases hl : (mx + mn) / 2 > 1/2
  · rw [if_pos hl, min_eq_right (by linarith)]
    have hpos : 0 < 2 - mx - mn := by linarith
    field_simp
    ring
  · rw [if_neg hl, min_eq_left (by linarith)]
    have hpos : 0 < mx + mn := by linarith
    field_simp

lemma colorQ_scaled (h s l n : ℚ) :
    colorQ h (s * 100) (l * 100) n = l - (s * min l (1 - l)) * clampT (jsMod12 (n + h / 30)) := by
  unfold colorQ
  have e1 : l * 100 / 100 = l := by ring
  have e2 : s * 100 / 100 = s := by ring
  rw [e1, e2]

lemma sIf_range (mx mn : ℚ) (h0 : 0 ≤ mn) (h2 : mx ≤ 1) (hlt : mn < mx) :
    0 ≤ (if (mx + mn) / 2 > 1/2 then (mx - mn) / (2 - mx - mn) else (mx - mn) / (mx + mn)) ∧
    (if (mx + mn) / 2 > 1/2 then (mx - mn) / (2 - mx - mn) else (mx - mn) / (mx + mn)) ≤ 1 := by
  by_cases hl : (mx + mn) / 2 > 1/2
  · rw [if_pos hl]
    have hpos : 0 < 2 - mx - mn := by linarith
    constructor
    · exact div_nonneg (by linarith) (le_of_lt hpos)
    · rw [div_le_one hpos]
      linarith
  · rw [if_neg hl]
    have hpos : 0 < mx + mn := by linarith
    constructor
    · exact div_nonneg (by linarith) (le_of_lt hpos)
    · rw [div_le_one hpos]
      linarith


lemma hsl_exact (r g b : ℚ) (hr0 : 0 ≤ r) (hr1 : r ≤ 1) (hg0 : 0 ≤ g) (hg1 : g ≤ 1)
    (hb0 : 0 ≤ b) (hb1 : b ≤ 1) :
    (colorQ (hslOfChannels r g b).h (hslOfChannels r g b).s (hslOfChannels r g b).l 0 = r ∧
     colorQ (hslOfChannels r g b).h (hslOfChannels r g b).s (hslOfChannels r g b).l 8 = g ∧
     colorQ (hslOfChannels r g b).h (hslOfChannels r g b).s (hslOfChannels r g b).l 4 = b) ∧
    0 ≤ (hslOfChannels r g b).h ∧ (hslOfChannels r g b).h < 360 ∧
    0 ≤ (hslOfChannels r g b).s ∧ (hslOfChannels r g b).s ≤ 100 ∧
    0 ≤ (hslOfChannels r g b).l ∧ (hslOfChannels r g b).l ≤ 100 := by
  by_cases hmn : max r (max g b) = min r (min g b)
  · have heqr : max r (max g b) = r :=
      le_antisymm (le_of_eq_of_le hmn (min_le_left _ _)) (le_max_left _ _)
    have heqg : max r (max g b) = g :=
      le_antisymm (le_of_eq_of_le hmn (le_trans (min_le_right _ _) (min_le_left _ _)))
        (le_trans (le_max_left _ _) (le_max_right _ _))
    have heqb : max r (max g b) = b :=
      le_antisymm (le_of_eq_of_le hmn (le_trans (min_le_right _ _) (min_le_right _ _)))
        (le_trans (le_max_right _ _) (le_max_right _ _))
    have hg' : g = r := by rw [← heqg, heqr]
    have hb' : b = r := by rw [← heqb, heqr]
    rw [hg', hb']
    simp only [hslOfChannels, max_self, min_self]
    rw [if_neg (show ¬(r ≠ r) from fun h => h rfl)]
    dsimp only
    refine ⟨⟨?_, ?_, ?_⟩, by norm_num, by norm_num, by norm_num, by norm_num, by linarith,
      by linarith⟩ <;>
    · rw [colorQ_scaled]
      ring
  · have hlt : min r (min g b) < max r (max g b) :=
      lt_of_le_of_ne (le_trans (min_le_left _ _) (le_max_left _ _)) (fun h => hmn h.symm)
    by_cases hmr : max r (max g b) = r
    · have hgr : g ≤ r :=
        le_trans (le_trans (le_max_left g b) (le_max_right r (max g b))) (le_of_eq hmr)
      have hbr : b ≤ r :=
        le_trans (le_trans (le_max_right g b) (le_max_right r (max g b))) (le_of_eq hmr)
      by_cases hgb : g < b
      · -- sector r, g < b
        have hmneq : min r (min g b) = g := by rw [min_eq_left (le_of_lt hgb), min_eq_right hgr]
        have hdlt : g < r := by rwa [hmneq, hmr] at hlt
        have hd : (0:ℚ) < r - g := by linarith
        have hu1 : (g - b) / (r - g) < 0 := div_neg_of_neg_of_pos (by linarith) hd
        have hu0 : -1 ≤ (g - b) / (r - g) := by
          rw [le_div_iff₀ hd]
          linarith
        obtain ⟨hT0, hT8, hT4⟩ := T_sector_r_lt ((g - b) / (r - g)) hu0 hu1
        have hS := sIf_range r g hg0 hr1 hdlt
        simp only [hslOfChannels]
        rw [if_pos hmn, if_pos hmr, if_pos hgb]
        dsimp only
        rw [hmr, hmneq]
        refine ⟨⟨?_, ?_, ?_⟩, ?_, ?_, ?_, ?_, ?_, ?_⟩
        · rw [colorQ_scaled, a_eq_half_d r g hg0 hr1 hdlt,
            show (0:ℚ) + ((g - b) / (r - g) + 6) / 6 * 360 / 30
              = 0 + (2 * ((g - b) / (r - g)) + 12) by ring, hT0]
          linarith
        · rw [colorQ_scaled, a_eq_half_d r g hg0 hr1 hdlt,
            show (8:ℚ) + ((g - b) / (r - g) + 6) / 6 * 360 / 30
              = 8 + (2 * ((g - b) / (r - g)) + 12) by ring, hT8]
          linarith
        · rw [colorQ_scaled, a_eq_half_d r g hg0 hr1 hdlt,
            show (4:ℚ) + ((g - b) / (r - g) + 6) / 6 * 360 / 30
              = 4 + (2 * ((g - b) / (r - g)) + 12) by ring, hT4]
          field_simp
          ring
        · rw [show ((g - b) / (r - g) + 6) / 6 * 360 = 60 * ((g - b) / (r - g)) + 360 by ring]
          linarith
        · rw [show ((g - b) / (r - g) + 6) / 6 * 360 = 60 * ((g - b) / (r - g)) + 360 by ring]
          linarith
        · linarith [hS.1]
        · linarith [hS.2]
        · linarith
        · linarith
      · -- sector r, b ≤ g
        have hbg : b ≤ g := not_lt.mp hgb
        have hmneq : min r (min g b) = b := by rw [min_eq_right hbg, min_eq_right hbr]
        have hdlt : b < r := by rwa [hmneq, hmr] at hlt
        have hd : (0:ℚ) < r - b := by linarith
        have hu0 : 0 ≤ (g - b) / (r - b) := div_nonneg (by linarith) (le_of_lt hd)
        have hu1 : (g - b) / (r - b) ≤ 1 := (div_le_one hd).mpr (by linarith)
        obtain ⟨hT0, hT8, hT4⟩ := T_sector_r_ge ((g - b) / (r - b)) hu0 hu1
        have hS := sIf_range r b hb0 hr1 hdlt
        simp only [hslOfChannels]
        rw [if_pos hmn, if_pos hmr, if_neg hgb]
        dsimp only
        rw [hmr, hmneq]
        refine ⟨⟨?_, ?_, ?_⟩, ?_, ?_, ?_, ?_, ?_, ?_⟩
        · rw [colorQ_scaled, a_eq_half_d r b hb0 hr1 hdlt,
            show (0:ℚ) + ((g - b) / (r - b) + 0) / 6 * 360 / 30
              = 0 + 2 * ((g - b) / (r - b)) by ring, hT0]
          linarith
        · rw [colorQ_scaled, a_eq_half_d r b hb0 hr1 hdlt,
            show (8:ℚ) + ((g - b) / (r - b) + 0) / 6 * 360 / 30
              = 8 + 2 * ((g - b) / (r - b)) by ring, hT8]
          field_simp
          ring
        · rw [colorQ_scaled, a_eq_half_d r b hb0 hr1 hdlt,
            show (4:ℚ) + ((g - b) / (r - b) + 0) / 6 * 360 / 30
              = 4 + 2 * ((g - b) / (r - b)) by ring, hT4]
          linarith
        · rw [show ((g - b) / (r - b) + 0) / 6 * 360 = 60 * ((g - b) / (r - b)) by ring]
          linarith
        · rw [show ((g - b) / (r - b) + 0) / 6 * 360 = 60 * ((g - b) / (r - b)) by ring]
          linarith
        · linarith [hS.1]
        · linarith [hS.2]
        · linarith
        · linarith
    · by_cases hmg : max r (max g b) = g
      · have hrg : r ≤ g := le_trans (le_max_left r (max g b)) (le_of_eq hmg)
        have hbg : b ≤ g :=
          le_trans (le_trans (le_max_right g b) (le_max_right r (max g b))) (le_of_eq hmg)
        by_cases hrb : r ≤ b
        · -- sector g, r ≤ b
          have hmneq : min r (min g b) = r := by rw [min_eq_right hbg, min_eq_left hrb]
          have hdlt : r < g := by rwa [hmneq, hmg] at hlt
          have hd : (0:ℚ) < g - r := by linarith
          have hv0 : 0 ≤ (b - r) / (g - r) := div_nonneg (by linarith) (le_of_lt hd)
          have hv1 : (b - r) / (g - r) ≤ 1 := (div_le_one hd).mpr (by linarith)
          obtain ⟨hT0, hT8, hT4⟩ := T_sector_g_ge ((b - r) / (g - r)) hv0 hv1
          have hS := sIf_range g r hr0 hg1 hdlt
          simp only [hslOfChannels]
          rw [if_pos hmn, if_neg hmr, if_pos hmg]
          dsimp only
          rw [hmg, hmneq]
          refine ⟨⟨?_, ?_, ?_⟩, ?_, ?_, ?_, ?_, ?_, ?_⟩
          · rw [colorQ_scaled, a_eq_half_d g r hr0 hg1 hdlt,
              show (0:ℚ) + ((b - r) / (g - r) + 2) / 6 * 360 / 30
                = 0 + (2 * ((b - r) / (g - r)) + 4) by ring, hT0]
            linarith
          · rw [colorQ_scaled, a_eq_half_d g r hr0 hg1 hdlt,
              show (8:ℚ) + ((b - r) / (g - r) + 2) / 6 * 360 / 30
                = 8 + (2 * ((b - r) / (g - r)) + 4) by ring, hT8]
            linarith
          · rw [colorQ_scaled, a_eq_half_d g r hr0 hg1 hdlt,
              show (4:ℚ) + ((b - r) / (g - r) + 2) / 6 * 360 / 30
                = 4 + (2 * ((b - r) / (g - r)) + 4) by ring, hT4]
            field_simp
            ring
          · rw [show ((b - r) / (g - r) + 2) / 6 * 360 = 60 * ((b - r) / (g - r)) + 120 by ring]
            linarith
          · rw [show ((b - r) / (g - r) + 2) / 6 * 360 = 60 * ((b - r) / (g - r)) + 120 by ring]
            linarith
          · linarith [hS.1]
          · linarith [hS.2]
          · linarith
          · linarith
        · -- sector g, b < r
          have hbr : b < r := not_le.mp hrb
          have hmneq : min r (min g b) = b := by
            rw [min_eq_right hbg, min_eq_right (le_of_lt hbr)]
          have hdlt : b < g := by rwa [hmneq, hmg] at hlt
          have hd : (0:ℚ) < g - b := by linarith
          have hv1 : (b - r) / (g - b) < 0 := div_neg_of_neg_of_pos (by linarith) hd
          have hv0 : -1 ≤ (b - r) / (g - b) := by
            rw [le_div_iff₀ hd]
            linarith
          obtain ⟨hT0, hT8, hT4⟩ := T_sector_g_lt ((b - r) / (g - b)) hv0 hv1
          have hS := sIf_range g b hb0 hg1 hdlt
          simp only [hslOfChannels]
          rw [if_pos hmn, if_neg hmr, if_pos hmg]
          dsimp only
          rw [hmg, hmneq]
          refine ⟨⟨?_, ?_, ?_⟩, ?_, ?_, ?_, ?_, ?_, ?_⟩
          · rw [colorQ_scaled, a_eq_half_d g b hb0 hg1 hdlt,
              show (0:ℚ) + ((b - r) / (g - b) + 2) / 6 * 360 / 30
                = 0 + (2 * ((b - r) / (g - b)) + 4) by ring, hT0]
            field_simp
            ring
          · rw [colorQ_scaled, a_eq_half_d g b hb0 hg1 hdlt,
              show (8:ℚ) + ((b - r) / (g - b) + 2) / 6 * 360 / 30
                = 8 + (2 * ((b - r) / (g - b)) + 4) by ring, hT8]
            linarith
          · rw [colorQ_scaled, a_eq_half_d g b hb0 hg1 hdlt,
              show (4:ℚ) + ((b - r) / (g - b) + 2) / 6 * 360 / 30
                = 4 + (2 * ((b - r) / (g - b)) + 4) by ring, hT4]
            linarith
          · rw [show ((b - r) / (g - b) + 2) / 6 * 360 = 60 * ((b - r) / (g - b)) + 120 by ring]
            linarith
          · rw [show ((b - r) / (g - b) + 2) / 6 * 360 = 60 * ((b - r) / (g - b)) + 120 by ring]
            linarith
          · linarith [hS.1]
          · linarith [hS.2]
          · linarith
          · linarith
      · have hmb : max r (max g b) = b := by
          rcases max_choice r (max g b) with h | h
          · exact absurd h hmr
          · rcases max_choice g b with h2 | h2
            · exact absurd (h.trans h2) hmg
            · exact h.trans h2
        have hrb : r ≤ b := le_trans (le_max_left r (max g b)) (le_of_eq hmb)
        have hgb : g ≤ b :=
          le_trans (le_trans (le_max_left g b) (le_max_right r (max g b))) (le_of_eq hmb)
        by_cases hgr : g ≤ r
        · -- sector b, g ≤ r
          have hmneq : min r (min g b) = g := by rw [min_eq_left hgb, min_eq_right hgr]
          have hdlt : g < b := by rwa [hmneq, hmb] at hlt
          have hd : (0:ℚ) < b - g := by linarith
          have hw0 : 0 ≤ (r - g) / (b - g) := div_nonneg (by linarith) (le_of_lt hd)
          have hw1 : (r - g) / (b - g) ≤ 1 := (div_le_one hd).mpr (by linarith)
          obtain ⟨hT0, hT8, hT4⟩ := T_sector_b_ge ((r - g) / (b - g)) hw0 hw1
          have hS := sIf_range b g hg0 hb1 hdlt
          simp only [hslOfChannels]
          rw [if_pos hmn, if_neg hmr, if_neg hmg, if_pos hmb]
          dsimp only
          rw [hmb, hmneq]
          refine ⟨⟨?_, ?_, ?_⟩, ?_, ?_, ?_, ?_, ?_, ?_⟩
          · rw [colorQ_scaled, a_eq_half_d b g hg0 hb1 hdlt,
              show (0:ℚ) + ((r - g) / (b - g) + 4) / 6 * 360 / 30
                = 0 + (2 * ((r - g) / (b - g)) + 8) by ring, hT0]
            field_simp
            ring
          · rw [colorQ_scaled, a_eq_half_d b g hg0 hb1 hdlt,
              show (8:ℚ) + ((r - g) / (b - g) + 4) / 6 * 360 / 30
                = 8 + (2 * ((r - g) / (b - g)) + 8) by ring, hT8]
            linarith
          · rw [colorQ_scaled, a_eq_half_d b g hg0 hb1 hdlt,
              show (4:ℚ) + ((r - g) / (b - g) + 4) / 6 * 360 / 30
                = 4 + (2 * ((r - g) / (b - g)) + 8) by ring, hT4]
            linarith
          · rw [show ((r - g) / (b - g) + 4) / 6 * 360 = 60 * ((r - g) / (b - g)) + 240 by ring]
            linarith
          · rw [show ((r - g) / (b - g) + 4) / 6 * 360 = 60 * ((r - g) / (b - g)) + 240 by ring]
            linarith
          · linarith [hS.1]
          · linarith [hS.2]
          · linarith
          · linarith
        · -- sector b, r < g
          have hrg : r < g := not_le.mp hgr
          have hmneq : min r (min g b) = r := by
            rw [min_eq_left hgb, min_eq_left (le_of_lt hrg)]
          have hdlt : r < b := by rwa [hmneq, hmb] at hlt
          have hd : (0:ℚ) < b - r := by linarith
          have hw1 : (r - g) / (b - r) < 0 := div_neg_of_neg_of_pos (by linarith) hd
          have hw0 : -1 ≤ (r - g) / (b - r) := by
            rw [le_div_iff₀ hd]
            linarith
          obtain ⟨hT0, hT8, hT4⟩ := T_sector_b_lt ((r - g) / (b - r)) hw0 hw1
          have hS := sIf_range b r hr0 hb1 hdlt
          simp only [hslOfChannels]
          rw [if_pos hmn, if_neg hmr, if_neg hmg, if_pos hmb]
          dsimp only
          rw [hmb, hmneq]
          refine ⟨⟨?_, ?_, ?_⟩, ?_, ?_, ?_, ?_, ?_, ?_⟩
          · rw [colorQ_scaled, a_eq_half_d b r hr0 hb1 hdlt,
              show (0:ℚ) + ((r - g) / (b - r) + 4) / 6 * 360 / 30
                = 0 + (2 * ((r - g) / (b - r)) + 8) by ring, hT0]
            linarith
          · rw [colorQ_scaled, a_eq_half_d b r hr0 hb1 hdlt,
              show (8:ℚ) + ((r - g) / (b - r) + 4) / 6 * 360 / 30
                = 8 + (2 * ((r - g) / (b - r)) + 8) by ring, hT8]
            field_simp
            ring
          · rw [colorQ_scaled, a_eq_half_d b r hr0 hb1 hdlt,
              show (4:ℚ) + ((r - g) / (b - r) + 4) / 6 * 360 / 30
                = 4 + (2 * ((r - g) / (b - r)) + 8) by ring, hT4]
            linarith
          · rw [show ((r - g) / (b - r) + 4) / 6 * 360 = 60 * ((r - g) / (b - r)) + 240 by ring]
            linarith
          · rw [show ((r - g) / (b - r) + 4) / 6 * 360 = 60 * ((r - g) / (b - r)) + 240 by ring]
            linarith
          · linarith [hS.1]
          · linarith [hS.2]
          · linarith
          · linarith

lemma clampT_mod_lipschitz (x y : ℚ) (hx0 : 0 ≤ x) (hx24 : x < 24) (hy0 : 0 ≤ y) (hy24 : y < 24)
    (hxy : |x - y| ≤ 1/60) :
    |clampT (jsMod12 x) - clampT (jsMod12 y)| ≤ |x - y| := by
  have hxy' := abs_le.mp hxy
  rcases le_or_lt 12 x with hx12 | hx12 <;> rcases le_or_lt 12 y with hy12 | hy12
  · rw [jsMod12_eq_sub hx12 hx24, jsMod12_eq_sub hy12 hy24]
    calc |clampT (x - 12) - clampT (y - 12)| ≤ |x - 12 - (y - 12)| := clampT_lipschitz _ _
      _ = |x - y| := by rw [show x - 12 - (y - 12) = x - y by ring]
  · rw [jsMod12_eq_sub hx12 hx24, jsMod12_eq_self hy0 hy12]
    rw [clampT_eq_neg_one (Or.inl (show x - 12 ≤ 2 by linarith [hxy'.2])),
      clampT_eq_neg_one (Or.inr (show (10:ℚ) ≤ y by linarith [hxy'.1]))]
    simp only [sub_self, abs_zero]
    exact abs_nonneg (x - y)
  · rw [jsMod12_eq_self hx0 hx12, jsMod12_eq_sub hy12 hy24]
    rw [clampT_eq_neg_one (Or.inr (show (10:ℚ) ≤ x by linarith [hxy'.2])),
      clampT_eq_neg_one (Or.inl (show y - 12 ≤ 2 by linarith [hxy'.1]))]
    simp only [sub_self, abs_zero]
    exact abs_nonneg (x - y)
  · rw [jsMod12_eq_self hx0 hx12, jsMod12_eq_self hy0 hy12]
    exact clampT_lipschitz x y

lemma perturb_core (L S M T L2 S2 M2 T2 : ℚ)
    (hS2a : 0 ≤ S2) (hS2b : S2 ≤ 1)
    (hMle : |M| ≤ 1/2) (hM2a : 0 ≤ M2) (hM2b : M2 ≤ 1/2)
    (hT : |T| ≤ 1) (hTT : |T2 - T| ≤ 1/60) (hLL : |L2 - L| ≤ 1/200)
    (hMM : |M2 - M| ≤ 1/200) (hSS : |S2 - S| ≤ 1/200) :
    |(L2 - S2 * M2 * T2) - (L - S * M * T)| ≤ 1/48 := by
  have hA : |S2 * M2 - S * M| ≤ 3/400 := by
    have e : S2 * M2 - S * M = S2 * (M2 - M) + M * (S2 - S) := by ring
    rw [e]
    calc |S2 * (M2 - M) + M * (S2 - S)| ≤ |S2 * (M2 - M)| + |M * (S2 - S)| := abs_add _ _
      _ = |S2| * |M2 - M| + |M| * |S2 - S| := by rw [abs_mul, abs_mul]
      _ ≤ 1 * (1/200) + (1/2) * (1/200) := by
          have h1 : |S2| ≤ 1 := by rw [abs_of_nonneg hS2a]; exact hS2b
          have := abs_nonneg (M2 - M)
          have := abs_nonneg (S2 - S)
          have := abs_nonneg M
          nlinarith
      _ = 3/400 := by norm_num
  have hSM2 : |S2 * M2| ≤ 1/2 := by
    rw [abs_mul, abs_of_nonneg hS2a, abs_of_nonneg hM2a]
    nlinarith
  have e2 : (L2 - S2 * M2 * T2) - (L - S * M * T)
      = (L2 - L) - (S2 * M2 * (T2 - T) + T * (S2 * M2 - S * M)) := by ring
  rw [e2]
  calc |(L2 - L) - (S2 * M2 * (T2 - T) + T * (S2 * M2 - S * M))|
      ≤ |L2 - L| + |S2 * M2 * (T2 - T) + T * (S2 * M2 - S * M)| := abs_sub _ _
    _ ≤ |L2 - L| + (|S2 * M2 * (T2 - T)| + |T * (S2 * M2 - S * M)|) := by
        linarith [abs_add (S2 * M2 * (T2 - T)) (T * (S2 * M2 - S * M))]
    _ = |L2 - L| + (|S2 * M2| * |T2 - T| + |T| * |S2 * M2 - S * M|) := by
        rw [abs_mul (S2 * M2) (T2 - T), abs_mul T (S2 * M2 - S * M)]
    _ ≤ 1/200 + ((1/2) * (1/60) + 1 * (3/400)) := by
        have := abs_nonneg (T2 - T)
        have := abs_nonneg (S2 * M2 - S * M)
        have := abs_nonneg T
        have := abs_nonneg (S2 * M2)
        nlinarith
    _ ≤ 1/48 := by norm_num

lemma colorQ_perturb (h s l h2 s2 l2 n : ℚ)
    (hh0 : 0 ≤ h) (hs0 : 0 ≤ s) (hs100 : s ≤ 100) (hl0 : 0 ≤ l) (hl100 : l ≤ 100)
    (hh20 : 0 ≤ h2) (hh2360 : h2 ≤ 361) (hh360 : h ≤ 361)
    (hs20 : 0 ≤ s2) (hs2100 : s2 ≤ 100) (hl20 : 0 ≤ l2) (hl2100 : l2 ≤ 100)
    (dh : |h2 - h| ≤ 1/2) (ds : |s2 - s| ≤ 1/2) (dl : |l2 - l| ≤ 1/2)
    (hn0 : 0 ≤ n) (hn8 : n ≤ 8) :
    |colorQ h2 s2 l2 n - colorQ h s l n| ≤ 1/48 := by
  unfold colorQ
  apply perturb_core (l/100) (s/100) (min (l/100) (1 - l/100))
    (clampT (jsMod12 (n + h/30))) (l2/100) (s2/100) (min (l2/100) (1 - l2/100))
    (clampT (jsMod12 (n + h2/30)))
  · positivity
  · rw [div_le_one (by norm_num : (0:ℚ) < 100)]
    linarith
  · rw [abs_of_nonneg (le_min (by positivity) (by linarith [hl100]))]
    rcases le_total (l/100) (1 - l/100) with hc | hc
    · rw [min_eq_left hc]
      linarith
    · rw [min_eq_right hc]
      linarith
  · exact le_min (by positivity) (by linarith [hl2100])
  · rcases le_total (l2/100) (1 - l2/100) with hc | hc
    · rw [min_eq_left hc]
      linarith
    · rw [min_eq_right hc]
      linarith
  · exact clampT_abs_le_one _
  · have harg : |(n + h2/30) - (n + h/30)| ≤ 1/60 := by
      rw [show (n + h2/30) - (n + h/30) = (h2 - h)/30 by ring, abs_div,
        abs_of_pos (by norm_num : (0:ℚ) < 30)]
      linarith [dh]
    calc |clampT (jsMod12 (n + h2/30)) - clampT (jsMod12 (n + h/30))|
        ≤ |(n + h2/30) - (n + h/30)| :=
          clampT_mod_lipschitz _ _ (by positivity) (by linarith) (by positivity) (by linarith)
            harg
      _ ≤ 1/60 := harg
  · rw [show l2/100 - l/100 = (l2 - l)/100 by ring, abs_div,
      abs_of_pos (by norm_num : (0:ℚ) < 100)]
    linarith [dl]
  · have := abs_min_sub_min_le_max (l2/100) (1 - l2/100) (l/100) (1 - l/100)
    have e1 : (1 - l2/100) - (1 - l/100) = -(l2/100 - l/100) := by ring
    rw [e1, abs_neg, max_self] at this
    calc |min (l2/100) (1 - l2/100) - min (l/100) (1 - l/100)| ≤ |l2/100 - l/100| := this
      _ ≤ 1/200 := by
          rw [show l2/100 - l/100 = (l2 - l)/100 by ring, abs_div,
            abs_of_pos (by norm_num : (0:ℚ) < 100)]
          linarith [dl]
  · rw [show s2/100 - s/100 = (s2 - s)/100 by ring, abs_div,
      abs_of_pos (by norm_num : (0:ℚ) < 100)]
    linarith [ds]

/-- Characters that are not decimal digits cannot be whitespace tests etc. -/
lemma digit_not_space {c : Char} {d : ℕ} (h : digitVal c = some d) : isJsSpace c = false := by
  by_contra hc
  have hc' : isJsSpace c = true := by
    cases he : isJsSpace c
    · exact absurd he hc
    · rfl
  simp only [isJsSpace, Bool.or_eq_true, decide_eq_true_eq] at hc'
  rcases hc' with ((((h1 | h1) | h1) | h1) | h1) | h1 <;>
    · subst h1
      rw [show digitVal _ = none from by decide] at h
      exact Option.noConfusion h

lemma digitVal_decDigitChar {d : ℕ} (hd : d < 10) : digitVal (decDigitChar d) = some d := by
  have hall : ∀ e < 10, digitVal (decDigitChar e) = some e := by decide
  exact hall d hd

lemma decRender_head_digit (n : ℕ) :
    ∃ c t d, decRender n = c :: t ∧ digitVal c = some d := by
  induction n using Nat.strong_induction_on with
  | _ n ih =>
    rw [decRender]
    split_ifs with h
    · exact ⟨decDigitChar n, [], n, rfl, digitVal_decDigitChar h⟩
    · obtain ⟨c, t, d, hct, hd⟩ := ih (n / 10) (Nat.div_lt_self (by omega) (by omega))
      exact ⟨c, t ++ [decDigitChar (n % 10)], d, by rw [hct]; rfl, hd⟩

/-- The character after a maximal digit run must not itself be a digit. -/
def headNotDigit : List Char → Prop
  | [] => True
  | c :: _ => digitVal c = none

lemma decDigitsLoop_stop {cs : List Char} (acc : ℕ) (h : headNotDigit cs) :
    decDigitsLoop cs acc = (acc, cs) := by
  cases cs with
  | nil => rfl
  | cons c t =>
    simp only [decDigitsLoop, show digitVal c = none from h]

lemma decDigitsLoop_render (n : ℕ) (rest : List Char) (acc : ℕ) :
    decDigitsLoop (decRender n ++ rest) acc
      = decDigitsLoop rest (acc * 10 ^ (decRender n).length + n) := by
  induction n using Nat.strong_induction_on generalizing rest acc with
  | _ n ih =>
    rw [decRender]
    split_ifs with h
    · simp only [List.singleton_append, List.length_singleton, decDigitsLoop,
        digitVal_decDigitChar h]
      congr 1
      ring
    · rw [List.append_assoc, ih (n / 10) (Nat.div_lt_self (by omega) (by omega)),
        List.singleton_append]
      simp only [decDigitsLoop, digitVal_decDigitChar (Nat.mod_lt n (by omega))]
      rw [List.length_append, List.length_singleton]
      congr 1
      have hmod : 10 * (n / 10) + n % 10 = n := by omega
      rw [pow_succ]
      calc 10 * (acc * 10 ^ (decRender (n / 10)).length + n / 10) + n % 10
          = acc * (10 ^ (decRender (n / 10)).length * 10) + (10 * (n / 10) + n % 10) := by ring
        _ = acc * (10 ^ (decRender (n / 10)).length * 10) + n := by rw [hmod]

lemma digits1_render (n : ℕ) (rest : List Char) (h : headNotDigit rest) :
    digits1 (decRender n ++ rest) = some (n, rest) := by
  obtain ⟨c, t, d, hct, hd⟩ := decRender_head_digit n
  have hloop : decDigitsLoop (decRender n ++ rest) 0 = (n, rest) := by
    rw [decDigitsLoop_render, decDigitsLoop_stop _ h]
    norm_num
  rw [hct] at hloop ⊢
  rw [List.cons_append]
  simp only [digits1, hd]
  simp only [List.cons_append, decDigitsLoop, hd,
    show 10 * 0 + d = d from by omega] at hloop
  exact congrArg some hloop

lemma expectChar_cons (c : Char) (rest : List Char) : expectChar c (c :: rest) = some rest := by
  simp only [expectChar, if_pos]

lemma expectChars_self_append (p cs : List Char) : expectChars p (p ++ cs) = some cs := by
  induction p with
  | nil => rfl
  | cons c t ih =>
    rw [List.cons_append]
    simp only [expectChars, expectChar_cons, ih]

lemma dropWhile_space_digit {cs rest : List Char} {c : Char} {t : List Char} {d : ℕ}
    (hshape : cs = c :: t) (hd : digitVal c = some d) :
    (cs ++ rest).dropWhile isJsSpace = cs ++ rest := by
  subst hshape
  rw [List.cons_append, List.dropWhile_cons_of_neg]
  rw [digit_not_space hd]
  exact Bool.false_ne_true

lemma hslMatch_render (H S L : ℕ) :
    hslMatch ("hsl(" ++ decRenderStr H ++ ", " ++ decRenderStr S ++ "%, "
      ++ decRenderStr L ++ "%)").toList = some (H, S, L) := by
  have tl : ∀ a b : String, (a ++ b).toList = a.toList ++ b.toList := fun _ _ => rfl
  have hlist : ("hsl(" ++ decRenderStr H ++ ", " ++ decRenderStr S ++ "%, "
      ++ decRenderStr L ++ "%)").toList
      = "hsl(".toList ++ (decRender H ++ (',' :: ' ' :: (decRender S
        ++ ('%' :: ',' :: ' ' :: (decRender L ++ ['%', ')']))))) := by
    simp only [tl, List.append_assoc]
    rfl
  rw [hlist]
  obtain ⟨cS, tS, dS, hctS, hdS⟩ := decRender_head_digit S
  obtain ⟨cL, tL, dL, hctL, hdL⟩ := decRender_head_digit L
  simp only [hslMatch, expectChars_self_append, Option.bind_eq_bind, Option.some_bind,
    digits1_render H (',' :: ' ' :: (decRender S ++ ('%' :: ',' :: ' ' :: (decRender L ++ ['%', ')']))))
      (by exact rfl),
    expectChar_cons, List.dropWhile_cons_of_pos (show isJsSpace ' ' = true from rfl),
    dropWhile_space_digit hctS hdS,
    digits1_render S ('%' :: ',' :: ' ' :: (decRender L ++ ['%', ')'])) (by exact rfl)]
  rw [show ('%' :: ',' :: ' ' :: (decRender L ++ ['%', ')']))
      = "%,".toList ++ (' ' :: (decRender L ++ ['%', ')'])) from rfl]
  simp only [expectChars_self_append, Option.some_bind,
    List.dropWhile_cons_of_pos (show isJsSpace ' ' = true from rfl),
    dropWhile_space_digit hctL hdL,
    digits1_render L ['%', ')'] (by exact rfl)]
  rw [show ('%' :: ')' :: ([] : List Char)) = "%)".toList ++ ([] : List Char) from rfl]
  simp only [expectChars_self_append, Option.some_bind, if_pos]

lemma hexDigit_not_space {c : Char} {d : ℕ} (h : hexDigitVal c = some d) :
    isJsSpace c = false := by
  by_contra hc
  have hc' : isJsSpace c = true := by
    cases he : isJsSpace c
    · exact absurd he hc
    · rfl
  simp only [isJsSpace, Bool.or_eq_true, decide_eq_true_eq] at hc'
  rcases hc' with ((((h1 | h1) | h1) | h1) | h1) | h1 <;>
    · subst h1
      rw [show hexDigitVal _ = none from by decide] at h
      exact Option.noConfusion h

lemma hexDigit_ne_minus {c : Char} {d : ℕ} (h : hexDigitVal c = some d) : c ≠ '-' := by
  rintro rfl
  rw [show hexDigitVal '-' = none from by decide] at h
  exact Option.noConfusion h

lemma hexDigit_ne_plus {c : Char} {d : ℕ} (h : hexDigitVal c = some d) : c ≠ '+' := by
  rintro rfl
  rw [show hexDigitVal '+' = none from by decide] at h
  exact Option.noConfusion h

lemma hexDigit_ne_x {c : Char} {d : ℕ} (h : hexDigitVal c = some d) : c ≠ 'x' := by
  rintro rfl
  rw [show hexDigitVal 'x' = none from by decide] at h
  exact Option.noConfusion h

lemma hexDigit_ne_X {c : Char} {d : ℕ} (h : hexDigitVal c = some d) : c ≠ 'X' := by
  rintro rfl
  rw [show hexDigitVal 'X' = none from by decide] at h
  exact Option.noConfusion h

lemma hexDigitVal_le {c : Char} {d : ℕ} (h : hexDigitVal c = some d) : d ≤ 15 := by
  unfold hexDigitVal at h
  split_ifs at h with h1 h2 h3
  · injection h with h'
    subst h'
    have hle : c ≤ '9' := h1.2
    have : c.toNat ≤ 57 := by
      rw [Char.le_def] at hle
      exact hle
    have e0 : Char.toNat '0' = 48 := rfl
    omega
  · injection h with h'
    subst h'
    have hle : c ≤ 'f' := h2.2
    have : c.toNat ≤ 102 := by
      rw [Char.le_def] at hle
      exact hle
    have e0 : Char.toNat 'a' = 97 := rfl
    omega
  · injection h with h'
    subst h'
    have hle : c ≤ 'F' := h3.2
    have : c.toNat ≤ 70 := by
      rw [Char.le_def] at hle
      exact hle
    have e0 : Char.toNat 'A' = 65 := rfl
    omega

lemma jsParseIntHex_pair (c0 c1 : Char) (d0 d1 : ℕ)
    (h0 : hexDigitVal c0 = some d0) (h1 : hexDigitVal c1 = some d1) :
    jsParseIntHex [c0, c1] = JsNum.val ((16 * d0 + d1 : ℕ) : ℚ) := by
  have hdrop : [c0, c1].dropWhile isJsSpace = [c0, c1] := by
    rw [List.dropWhile_cons_of_neg]
    rw [hexDigit_not_space h0]
    exact Bool.false_ne_true
  have hstrip : strip0x [c0, c1] = [c0, c1] := by
    unfold strip0x
    split
    · rename_i heq
      injection heq with ha hb
      exact absurd ((List.cons.injEq _ _ _ _).mp hb).1 (hexDigit_ne_x h1)
    · rename_i heq
      injection heq with ha hb
      exact absurd ((List.cons.injEq _ _ _ _).mp hb).1 (hexDigit_ne_X h1)
    · rfl
  have hbody : parseIntBody false [c0, c1] = JsNum.val ((16 * d0 + d1 : ℕ) : ℚ) := by
    simp only [parseIntBody, hstrip, hexDigitsVal, h0, hexDigitsLoop, h1, Bool.false_eq_true,
      if_false]
  simp only [jsParseIntHex, hdrop]
  split
  · rename_i rest heq
    injection heq with ha hb
    exact absurd ha.symm (Ne.symm (hexDigit_ne_minus h0))
  · rename_i rest heq
    injection heq with ha hb
    exact absurd ha.symm (Ne.symm (hexDigit_ne_plus h0))
  · exact hbody

lemma colorQ_range (h s l n : ℚ) (hs0 : 0 ≤ s) (hs1 : s ≤ 100) (hl0 : 0 ≤ l) (hl1 : l ≤ 100) :
    0 ≤ colorQ h s l n ∧ colorQ h s l n ≤ 1 := by
  unfold colorQ
  have hT := clampT_abs_le_one (jsMod12 (n + h / 30))
  have hT' := abs_le.mp hT
  have hM0 : 0 ≤ min (l/100) (1 - l/100) := le_min (by positivity) (by linarith)
  have hMl : min (l/100) (1 - l/100) ≤ l/100 := min_le_left _ _
  have hMr : min (l/100) (1 - l/100) ≤ 1 - l/100 := min_le_right _ _
  have hS0 : 0 ≤ s/100 := by positivity
  have hS1 : s/100 ≤ 1 := by
    rw [div_le_one (by norm_num : (0:ℚ) < 100)]
    linarith
  have hA0 : 0 ≤ s/100 * min (l/100) (1 - l/100) := mul_nonneg hS0 hM0
  have hA1 : s/100 * min (l/100) (1 - l/100) ≤ min (l/100) (1 - l/100) := by nlinarith
  have habs : |s/100 * min (l/100) (1 - l/100) * clampT (jsMod12 (n + h / 30))|
      ≤ s/100 * min (l/100) (1 - l/100) := by
    rw [abs_mul, abs_of_nonneg hA0]
    nlinarith [abs_nonneg (clampT (jsMod12 (n + h / 30)))]
  have habs' := abs_le.mp habs
  constructor
  · nlinarith [habs'.2]
  · nlinarith [habs'.1]

lemma channel_close (c : ℕ) (q1 : ℚ)
    (hdiff : |q1 - (c:ℚ)/255| ≤ 1/48) (hr0 : 0 ≤ q1) (hr1 : q1 ≤ 1) :
    0 ≤ jsRound (255*q1) ∧ jsRound (255*q1) ≤ 255 ∧ (jsRound (255*q1) - (c:ℤ)).natAbs ≤ 5 := by
  refine ⟨jsRound_nonneg (by positivity), jsRound_le_nat (by push_cast; nlinarith), ?_⟩
  have h1 : |(jsRound (255*q1) : ℚ) - 255*q1| ≤ 1/2 := jsRound_sub_abs _
  have h2 : |255*q1 - (c:ℚ)| ≤ 255/48 := by
    have e : 255*q1 - (c:ℚ) = 255 * (q1 - (c:ℚ)/255) := by ring
    rw [e, abs_mul, abs_of_pos (by norm_num : (0:ℚ) < 255)]
    nlinarith
  have h3 : |(jsRound (255*q1) : ℚ) - (c:ℚ)| ≤ 1/2 + 255/48 := by
    calc |(jsRound (255*q1) : ℚ) - (c:ℚ)|
        = |((jsRound (255*q1) : ℚ) - 255*q1) + (255*q1 - (c:ℚ))| := by ring_nf
      _ ≤ |(jsRound (255*q1) : ℚ) - 255*q1| + |255*q1 - (c:ℚ)| := abs_add _ _
      _ ≤ 1/2 + 255/48 := by linarith
  have h4 : (((jsRound (255*q1) - (c:ℤ)).natAbs : ℤ) : ℚ) < 6 := by
    rw [Int.cast_natAbs]
    push_cast
    calc |(jsRound (255*q1) : ℚ) - (c:ℚ)| ≤ 1/2 + 255/48 := h3
      _ < 6 := by norm_num
  have h5 : ((jsRound (255*q1) - (c:ℤ)).natAbs : ℤ) < 6 := by exact_mod_cast h4
  omega

lemma length_six_shape {α : Type} (l : List α) (h : l.length = 6) :
    ∃ a b c d e f : α, l = [a, b, c, d, e, f] := by
  rcases l with _ | ⟨a, _ | ⟨b, _ | ⟨c, _ | ⟨d, _ | ⟨e, _ | ⟨f, _ | ⟨g, t⟩⟩⟩⟩⟩⟩⟩
  · simp at h
  · simp at h
  · simp at h
  · simp at h
  · simp at h
  · simp at h
  · exact ⟨a, b, c, d, e, f, rfl⟩
  · simp only [List.length_cons] at h
    omega

/-- C4 counterexample: the claimed tolerance of plus or minus 1 already fails
at `#000002`: its lightness percentage `100/255·(1/255)·100 = 20/51` rounds to
`0`, so the round trip returns `#000000` and the blue channel moves by 2. -/
theorem c4_counterexample_deviation_two :
    hexChannelsOf "#000002" = (0, 0, 2) ∧ roundTripHex "#000002" = "#000000" ∧
    ¬ (((0:ℤ) - (2:ℤ)).natAbs ≤ 1) := by
  refine ⟨by decide, ?_, by decide⟩
  have hr : jsParseIntHex (jsSubstring (stripLeadingHash "#000002".toList) 0 2)
      = JsNum.val 0 := by decide
  have hg : jsParseIntHex (jsSubstring (stripLeadingHash "#000002".toList) 2 4)
      = JsNum.val 0 := by decide
  have hb : jsParseIntHex (jsSubstring (stripLeadingHash "#000002".toList) 4 6)
      = JsNum.val 2 := by decide
  have hhex : hexToHsl "#000002" = ⟨JsNum.val 240, JsNum.val 100, JsNum.val (20/51)⟩ := by
    rw [hexToHsl_of_val _ 0 0 2 hr hg hb]
    norm_num [hslOfChannels, max_def, min_def]
  unfold roundTripHex
  rw [hhex]
  have e1 : (jsRound (240:ℚ)).toNat = 240 := by
    rw [show jsRound (240:ℚ) = 240 from by norm_num [jsRound]]
    rfl
  have e2 : (jsRound (100:ℚ)).toNat = 100 := by
    rw [show jsRound (100:ℚ) = 100 from by norm_num [jsRound]]
    rfl
  have e3 : (jsRound ((20:ℚ)/51)).toNat = 0 := by
    have : jsRound ((20:ℚ)/51) = 0 := by
      unfold jsRound
      rw [Int.floor_eq_iff]
      constructor <;> norm_num
    rw [this]
    rfl
  show hslToHex ("hsl(" ++ decRenderStr (jsRound (240:ℚ)).toNat ++ ", "
    ++ decRenderStr (jsRound (100:ℚ)).toNat ++ "%, "
    ++ decRenderStr (jsRound ((20:ℚ)/51)).toNat ++ "%)") = "#000000"
  rw [e1, e2, e3]
  unfold hslToHex
  rw [hslMatch_render 240 100 0]
  have hF : ∀ n : ℚ, hslToHexF ((240:ℕ):ℚ) (((0:ℕ):ℚ)/100)
      (((100:ℕ):ℚ)/100 * min (((0:ℕ):ℚ)/100) (1 - ((0:ℕ):ℚ)/100)) n = ['0', '0'] := by
    intro n
    unfold hslToHexF
    have h0 : (255:ℚ) * ((((0:ℕ):ℚ))/100 - (((100:ℕ):ℚ)/100 * min (((0:ℕ):ℚ)/100)
        (1 - ((0:ℕ):ℚ)/100)) * clampT (jsMod12 (n + ((240:ℕ):ℚ) / 30))) = 0 := by
      push_cast
      ring_nf
      norm_num [min_def]
    rw [h0]
    have h1 : jsRound 0 = 0 := by
      unfold jsRound
      norm_num
    rw [h1]
    rfl
  show (⟨'#' :: (hslToHexF ((240:ℕ):ℚ) (((0:ℕ):ℚ)/100)
      (((100:ℕ):ℚ)/100 * min (((0:ℕ):ℚ)/100) (1 - ((0:ℕ):ℚ)/100)) 0
    ++ hslToHexF ((240:ℕ):ℚ) (((0:ℕ):ℚ)/100)
      (((100:ℕ):ℚ)/100 * min (((0:ℕ):ℚ)/100) (1 - ((0:ℕ):ℚ)/100)) 8
    ++ hslToHexF ((240:ℕ):ℚ) (((0:ℕ):ℚ)/100)
      (((100:ℕ):ℚ)/100 * min (((0:ℕ):ℚ)/100) (1 - ((0:ℕ):ℚ)/100)) 4)⟩ : String) = "#000000"
  rw [hF 0, hF 8, hF 4]
  rfl

/-- C4 (amended): the claim's tolerance of plus or minus 1 per channel is too
tight, but a weaker round-trip bound does hold.  For every 6-hex-digit color,
`hexToHsl` followed by rendering the `hsl(H, S%, L%)` string with each
component rounded to the nearest integer (the only form `hslToHex`'s
integer-only regex accepts) and converting back with `hslToHex` yields a
well-formed hex color each of whose channels is within 5 of the original
(5 is attained, e.g. at `#02e4e6`). -/
theorem c4_amended_roundtrip_within_five (H : String) (hH : validHex6 H = true) :
    ∃ r g b r2 g2 b2 : ℕ,
      hexChannelsOf H = (r, g, b) ∧ r2 ≤ 255 ∧ g2 ≤ 255 ∧ b2 ≤ 255 ∧
      roundTripHex H = hexRender r2 g2 b2 ∧
      ((r2:ℤ) - (r:ℤ)).natAbs ≤ 5 ∧ ((g2:ℤ) - (g:ℤ)).natAbs ≤ 5 ∧
      ((b2:ℤ) - (b:ℤ)).natAbs ≤ 5 := by
  unfold validHex6 at hH
  rw [Bool.and_eq_true, decide_eq_true_eq] at hH
  obtain ⟨hlen, hall⟩ := hH
  obtain ⟨c0, c1, c2, c3, c4, c5, hshape⟩ := length_six_shape _ hlen
  rw [hshape] at hall
  rw [List.all_eq_true] at hall
  have hhx : ∀ c ∈ [c0, c1, c2, c3, c4, c5], ∃ d, hexDigitVal c = some d := by
    intro c hc
    exact Option.isSome_iff_exists.mp (hall c hc)
  obtain ⟨d0, h0⟩ := hhx c0 (by simp)
  obtain ⟨d1, h1⟩ := hhx c1 (by simp)
  obtain ⟨d2, h2⟩ := hhx c2 (by simp)
  obtain ⟨d3, h3⟩ := hhx c3 (by simp)
  obtain ⟨d4, h4⟩ := hhx c4 (by simp)
  obtain ⟨d5, h5⟩ := hhx c5 (by simp)
  have hp0 : jsParseIntHex (jsSubstring (stripLeadingHash H.toList) 0 2)
      = JsNum.val ((16 * d0 + d1 : ℕ) : ℚ) := by
    rw [hshape, show jsSubstring [c0, c1, c2, c3, c4, c5] 0 2 = [c0, c1] from rfl]
    exact jsParseIntHex_pair _ _ _ _ h0 h1
  have hp1 : jsParseIntHex (jsSubstring (stripLeadingHash H.toList) 2 4)
      = JsNum.val ((16 * d2 + d3 : ℕ) : ℚ) := by
    rw [hshape, show jsSubstring [c0, c1, c2, c3, c4, c5] 2 4 = [c2, c3] from rfl]
    exact jsParseIntHex_pair _ _ _ _ h2 h3
  have hp2 : jsParseIntHex (jsSubstring (stripLeadingHash H.toList) 4 6)
      = JsNum.val ((16 * d4 + d5 : ℕ) : ℚ) := by
    rw [hshape, show jsSubstring [c0, c1, c2, c3, c4, c5] 4 6 = [c4, c5] from rfl]
    exact jsParseIntHex_pair _ _ _ _ h4 h5
  have hr255 : 16 * d0 + d1 ≤ 255 := by
    have := hexDigitVal_le h0
    have := hexDigitVal_le h1
    omega
  have hg255 : 16 * d2 + d3 ≤ 255 := by
    have := hexDigitVal_le h2
    have := hexDigitVal_le h3
    omega
  have hb255 : 16 * d4 + d5 ≤ 255 := by
    have := hexDigitVal_le h4
    have := hexDigitVal_le h5
    omega
  have hhex := hexToHsl_of_val H ((16 * d0 + d1 : ℕ) : ℚ) ((16 * d2 + d3 : ℕ) : ℚ)
    ((16 * d4 + d5 : ℕ) : ℚ) hp0 hp1 hp2
  have hchbound : ∀ m : ℕ, m ≤ 255 → 0 ≤ ((m : ℕ) : ℚ) / 255 ∧ ((m : ℕ) : ℚ) / 255 ≤ 1 := by
    intro m hm
    constructor
    · positivity
    · rw [div_le_one (by norm_num : (0:ℚ) < 255)]
      exact_mod_cast hm
  obtain ⟨hrq0, hrq1⟩ := hchbound _ hr255
  obtain ⟨hgq0, hgq1⟩ := hchbound _ hg255
  obtain ⟨hbq0, hbq1⟩ := hchbound _ hb255
  obtain ⟨⟨hx0, hx8, hx4⟩, hqH0, hqH360, hqS0, hqS100, hqL0, hqL100⟩ :=
    hsl_exact (((16 * d0 + d1 : ℕ) : ℚ) / 255) (((16 * d2 + d3 : ℕ) : ℚ) / 255)
      (((16 * d4 + d5 : ℕ) : ℚ) / 255) hrq0 hrq1 hgq0 hgq1 hbq0 hbq1
  set Hq := (hslOfChannels (((16 * d0 + d1 : ℕ) : ℚ) / 255) (((16 * d2 + d3 : ℕ) : ℚ) / 255)
    (((16 * d4 + d5 : ℕ) : ℚ) / 255)).h with hHqd
  set Sq := (hslOfChannels (((16 * d0 + d1 : ℕ) : ℚ) / 255) (((16 * d2 + d3 : ℕ) : ℚ) / 255)
    (((16 * d4 + d5 : ℕ) : ℚ) / 255)).s with hSqd
  set Lq := (hslOfChannels (((16 * d0 + d1 : ℕ) : ℚ) / 255) (((16 * d2 + d3 : ℕ) : ℚ) / 255)
    (((16 * d4 + d5 : ℕ) : ℚ) / 255)).l with hLqd
  -- rounded integer components and their casts
  have hHr0 : 0 ≤ jsRound Hq := jsRound_nonneg hqH0
  have hSr0 : 0 ≤ jsRound Sq := jsRound_nonneg hqS0
  have hLr0 : 0 ≤ jsRound Lq := jsRound_nonneg hqL0
  have hHcast : (((jsRound Hq).toNat : ℕ) : ℚ) = ((jsRound Hq : ℤ) : ℚ) := by
    exact_mod_cast Int.toNat_of_nonneg hHr0
  have hScast : (((jsRound Sq).toNat : ℕ) : ℚ) = ((jsRound Sq : ℤ) : ℚ) := by
    exact_mod_cast Int.toNat_of_nonneg hSr0
  have hLcast : (((jsRound Lq).toNat : ℕ) : ℚ) = ((jsRound Lq : ℤ) : ℚ) := by
    exact_mod_cast Int.toNat_of_nonneg hLr0
  have hdH : |(((jsRound Hq).toNat : ℕ) : ℚ) - Hq| ≤ 1/2 := by
    rw [hHcast]
    exact jsRound_sub_abs Hq
  have hdS : |(((jsRound Sq).toNat : ℕ) : ℚ) - Sq| ≤ 1/2 := by
    rw [hScast]
    exact jsRound_sub_abs Sq
  have hdL : |(((jsRound Lq).toNat : ℕ) : ℚ) - Lq| ≤ 1/2 := by
    rw [hLcast]
    exact jsRound_sub_abs Lq
  have hHn361 : (((jsRound Hq).toNat : ℕ) : ℚ) ≤ 361 := by
    rw [hHcast]
    have h361 : jsRound Hq ≤ (361 : ℕ) := jsRound_le_nat (by push_cast; linarith)
    exact_mod_cast h361
  have hSn100 : (((jsRound Sq).toNat : ℕ) : ℚ) ≤ 100 := by
    rw [hScast]
    have h100 : jsRound Sq ≤ (100 : ℕ) := jsRound_le_nat (by push_cast; linarith)
    exact_mod_cast h100
  have hLn100 : (((jsRound Lq).toNat : ℕ) : ℚ) ≤ 100 := by
    rw [hLcast]
    have h100 : jsRound Lq ≤ (100 : ℕ) := jsRound_le_nat (by push_cast; linarith)
    exact_mod_cast h100
  have hHn0 : (0:ℚ) ≤ (((jsRound Hq).toNat : ℕ) : ℚ) := by positivity
  have hSn0 : (0:ℚ) ≤ (((jsRound Sq).toNat : ℕ) : ℚ) := by positivity
  have hLn0 : (0:ℚ) ≤ (((jsRound Lq).toNat : ℕ) : ℚ) := by positivity
  -- perturbation bounds for the three evaluation points
  have hper : ∀ n : ℚ, 0 ≤ n → n ≤ 8 →
      |colorQ (((jsRound Hq).toNat : ℕ) : ℚ) (((jsRound Sq).toNat : ℕ) : ℚ)
        (((jsRound Lq).toNat : ℕ) : ℚ) n - colorQ Hq Sq Lq n| ≤ 1/48 := by
    intro n hn0 hn8
    exact colorQ_perturb Hq Sq Lq _ _ _ n hqH0 hqS0 hqS100 hqL0 hqL100
      hHn0 hHn361 (by linarith) hSn0 hSn100 hLn0 hLn100 hdH hdS hdL hn0 hn8
  have hper0 := hper 0 (by norm_num) (by norm_num)
  have hper8 := hper 8 (by norm_num) (by norm_num)
  have hper4 := hper 4 (by norm_num) (by norm_num)
  rw [hx0] at hper0
  rw [hx8] at hper8
  rw [hx4] at hper4
  have hrange := colorQ_range (((jsRound Hq).toNat : ℕ) : ℚ) (((jsRound Sq).toNat : ℕ) : ℚ)
    (((jsRound Lq).toNat : ℕ) : ℚ)
  obtain ⟨hr00, hr01⟩ := hrange 0 hSn0 hSn100 hLn0 hLn100
  obtain ⟨hr80, hr81⟩ := hrange 8 hSn0 hSn100 hLn0 hLn100
  obtain ⟨hr40, hr41⟩ := hrange 4 hSn0 hSn100 hLn0 hLn100
  obtain ⟨hc0a, hc0b, hc0c⟩ := channel_close (16 * d0 + d1) _ hper0 hr00 hr01
  obtain ⟨hc8a, hc8b, hc8c⟩ := channel_close (16 * d2 + d3) _ hper8 hr80 hr81
  obtain ⟨hc4a, hc4b, hc4c⟩ := channel_close (16 * d4 + d5) _ hper4 hr40 hr41
  -- evaluate the round trip
  have hrt : roundTripHex H = hexRender
      (jsRound (255 * colorQ (((jsRound Hq).toNat : ℕ) : ℚ) (((jsRound Sq).toNat : ℕ) : ℚ)
        (((jsRound Lq).toNat : ℕ) : ℚ) 0)).toNat
      (jsRound (255 * colorQ (((jsRound Hq).toNat : ℕ) : ℚ) (((jsRound Sq).toNat : ℕ) : ℚ)
        (((jsRound Lq).toNat : ℕ) : ℚ) 8)).toNat
      (jsRound (255 * colorQ (((jsRound Hq).toNat : ℕ) : ℚ) (((jsRound Sq).toNat : ℕ) : ℚ)
        (((jsRound Lq).toNat : ℕ) : ℚ) 4)).toNat := by
    unfold roundTripHex
    rw [hhex]
    show hslToHex ("hsl(" ++ decRenderStr (jsRound Hq).toNat ++ ", "
      ++ decRenderStr (jsRound Sq).toNat ++ "%, " ++ decRenderStr (jsRound Lq).toNat ++ "%)") = _
    unfold hslToHex
    rw [hslMatch_render]
    show (⟨'#' :: (padStart2 (intToHexChars (jsRound (255 * colorQ _ _ _ 0)))
      ++ padStart2 (intToHexChars (jsRound (255 * colorQ _ _ _ 8)))
      ++ padStart2 (intToHexChars (jsRound (255 * colorQ _ _ _ 4))))⟩ : String) = _
    rw [show intToHexChars (jsRound (255 * colorQ (((jsRound Hq).toNat : ℕ) : ℚ)
        (((jsRound Sq).toNat : ℕ) : ℚ) (((jsRound Lq).toNat : ℕ) : ℚ) 0))
        = Nat.toDigits 16 (jsRound (255 * colorQ (((jsRound Hq).toNat : ℕ) : ℚ)
          (((jsRound Sq).toNat : ℕ) : ℚ) (((jsRound Lq).toNat : ℕ) : ℚ) 0)).toNat from by
      unfold intToHexChars
      rw [if_neg (not_lt.mpr hc0a)]]
    rw [show intToHexChars (jsRound (255 * colorQ (((jsRound Hq).toNat : ℕ) : ℚ)
        (((jsRound Sq).toNat : ℕ) : ℚ) (((jsRound Lq).toNat : ℕ) : ℚ) 8))
        = Nat.toDigits 16 (jsRound (255 * colorQ (((jsRound Hq).toNat : ℕ) : ℚ)
          (((jsRound Sq).toNat : ℕ) : ℚ) (((jsRound Lq).toNat : ℕ) : ℚ) 8)).toNat from by
      unfold intToHexChars
      rw [if_neg (not_lt.mpr hc8a)]]
    rw [show intToHexChars (jsRound (255 * colorQ (((jsRound Hq).toNat : ℕ) : ℚ)
        (((jsRound Sq).toNat : ℕ) : ℚ) (((jsRound Lq).toNat : ℕ) : ℚ) 4))
        = Nat.toDigits 16 (jsRound (255 * colorQ (((jsRound Hq).toNat : ℕ) : ℚ)
          (((jsRound Sq).toNat : ℕ) : ℚ) (((jsRound Lq).toNat : ℕ) : ℚ) 4)).toNat from by
      unfold intToHexChars
      rw [if_neg (not_lt.mpr hc4a)]]
    rfl
  -- the named channels
  have hchan : hexChannelsOf H = (16 * d0 + d1, 16 * d2 + d3, 16 * d4 + d5) := by
    unfold hexChannelsOf
    rw [hshape]
    show (hexPairVal c0 c1, hexPairVal c2 c3, hexPairVal c4 c5) = _
    unfold hexPairVal
    rw [h0, h1, h2, h3, h4, h5]
    rfl
  refine ⟨16 * d0 + d1, 16 * d2 + d3, 16 * d4 + d5, _, _, _, hchan,
    Int.toNat_le.mpr hc0b, Int.toNat_le.mpr hc8b, Int.toNat_le.mpr hc4b, hrt, ?_, ?_, ?_⟩
  · rw [Int.toNat_of_nonneg hc0a]
    exact hc0c
  · rw [Int.toNat_of_nonneg hc8a]
    exact hc8c
  · rw [Int.toNat_of_nonneg hc4a]
    exact hc4c

/-- C4 witness: the amended round-trip bound applied at `#3366cc` (which the
round trip in fact reproduces exactly). -/
theorem c4_amended_roundtrip_within_five_witness :
    validHex6 "#3366cc" = true ∧
    (∃ r g b r2 g2 b2 : ℕ, hexChannelsOf "#3366cc" = (r, g, b) ∧ r2 ≤ 255 ∧ g2 ≤ 255 ∧
      b2 ≤ 255 ∧ roundTripHex "#3366cc" = hexRender r2 g2 b2 ∧
      ((r2:ℤ) - (r:ℤ)).natAbs ≤ 5 ∧ ((g2:ℤ) - (g:ℤ)).natAbs ≤ 5 ∧
      ((b2:ℤ) - (b:ℤ)).natAbs ≤ 5) :=
  ⟨by decide, c4_amended_roundtrip_within_five "#3366cc" (by decide)⟩

end ThemedTags
